import Mathlib

/-!
Shallow embedding of the Thronglet creature-simulation core and proofs about it.

Embedded modules:
* `src/domain/creature.py`   — `Creature`, `CreatureState`, `WorldState`
* `src/domain/behavior.py`   — the five behavior states, `BehaviorFSM.update_creature`,
  `process_pending_offspring`
* `src/services/simulation.py` — `SimulationEngine.tick`, `_update_world`,
  `_update_creature`, `add_creature`, `remove_creature`, `force_reproduction`,
  `feed_all_creatures`
* `src/services/network.py`  — migration selection (`_attempt_migrations`),
  `_handle_creature_migration`, `_migrate_creature`
* `src/config/network_config.py` — migration constants

Modelling conventions:
* Python ints are `Int`; Python float ratios (`age / max_age`) are `ℚ`
  (division by zero yields the junk value 0 where Python would raise; no theorem
  below depends on that corner).
* `random.randint(a, b)` is modelled by an oracle stream: `RNG.val a b` is an
  arbitrary stream value clamped into `[a, b]` (exactly the guaranteed range of
  `randint`), and `RNG.next` advances the stream.  `random.random() < p` draws
  are modelled by a Bool stream (`RNG.coin`/`RNG.nextb`), `uuid.uuid4()` by a
  String stream (`RNG.fid`/`RNG.nexts`).
* `time.time()` is an explicit `now : Int` parameter; Python `hash` is an
  explicit `hsh : String → Int` parameter.
* The registry dict `creatures : Dict[str, Creature]` is a `List Creature` in
  insertion order (Python 3.7+ dict order); `insertReg` models dict assignment
  `creatures[c.id] = c`, removal is modelled by id-respecting filters.
-/

namespace Thronglet

/-- The five FSM states of `CreatureState` in `creature.py`. -/
inductive CreatureState where
  | idle
  | hungry
  | eating
  | reproducing
  | dying
deriving DecidableEq, Repr

/-- One entry of a parent's `pending_offspring` list (the dict built by
`ReproducingState.create_offspring`). -/
structure OffspringData where
  name : String
  max_age : Int
  energy : Int
  happiness : Int
  parent_id : String
  created_at : Int
deriving DecidableEq, Repr

/-- The free-form `traits` dict, restricted to the keys the code actually uses;
a missing key is `none` (resp. `[]` for the pending-offspring list). -/
structure Traits where
  last_migration : Option Int
  migration_count : Option Int
  pending_offspring : List OffspringData
  death_time : Option Int
  death_cause : Option String
  generation : Option Int
  parent_id : Option String
  birth_time : Option Int
deriving DecidableEq, Repr

/-- An empty `traits` dict. -/
def Traits.empty : Traits := ⟨none, none, [], none, none, none, none, none⟩

/-- The `Creature` dataclass of `creature.py`. -/
structure Creature where
  id : String
  name : String
  age : Int
  energy : Int
  happiness : Int
  hunger : Int
  current_machine : String
  max_age : Int
  state : CreatureState
  traits : Traits
  last_fed : Int
  last_reproduced : Int
deriving DecidableEq, Repr

/-- The `WorldState` dataclass of `creature.py`. -/
structure WorldState where
  food : Int
  max_food : Int
  temperature : Int
  population_count : Int
  max_population : Int
  food_regen_rate : Int
  last_update : Int
deriving DecidableEq, Repr

/-- `WorldState.can_support_creature`. -/
def WorldState.can_support_creature (w : WorldState) : Bool :=
  decide (w.population_count < w.max_population)

/-- `WorldState.has_food`. -/
def WorldState.has_food (w : WorldState) : Bool :=
  decide (w.food > 0)

/-- `WorldState.consume_food`: on success returns the decremented world and
`true`, otherwise the unchanged world and `false`. -/
def WorldState.consume_food (w : WorldState) (amount : Int) : WorldState × Bool :=
  if w.food ≥ amount then ({ w with food := w.food - amount }, true) else (w, false)

/-- `Creature.can_migrate`: not Dying/Reproducing, energy > 30, age > 50. -/
def Creature.can_migrate (c : Creature) : Bool :=
  decide (c.state ∉ [CreatureState.dying, CreatureState.reproducing]) &&
  decide (c.energy > 30) && decide (c.age > 50)

/-- The dictionary produced by `Creature.prepare_for_migration`. -/
structure CreatureData where
  id : String
  name : String
  age : Int
  energy : Int
  happiness : Int
  hunger : Int
  max_age : Int
  state : CreatureState
  traits : Traits
  last_fed : Int
  last_reproduced : Int
deriving DecidableEq, Repr

/-- `Creature.prepare_for_migration`: serialize all transferable fields. -/
def Creature.prepare_for_migration (c : Creature) : CreatureData :=
  ⟨c.id, c.name, c.age, c.energy, c.happiness, c.hunger, c.max_age, c.state,
   c.traits, c.last_fed, c.last_reproduced⟩

/-- `Creature.from_migration_data`: rebuild the creature under the new machine
id with `energy = max(energy - 5, 10)`, `hunger = min(hunger + 10, 100)`, and
stamp `last_migration` / incremented `migration_count` into the traits. -/
def Creature.from_migration_data (now : Int) (data : CreatureData)
    (new_machine_id : String) : Creature :=
  let base : Creature :=
    { id := data.id, name := data.name, age := data.age,
      energy := max (data.energy - 5) 10,
      happiness := data.happiness,
      hunger := min (data.hunger + 10) 100,
      current_machine := new_machine_id,
      max_age := data.max_age, state := data.state, traits := data.traits,
      last_fed := data.last_fed, last_reproduced := data.last_reproduced }
  { base with
    traits := { base.traits with
      last_migration := some now,
      migration_count := some (base.traits.migration_count.getD 0 + 1) } }

/-- Oracle streams standing for `random.randint`, `random.random() < p`
comparisons in the source (`uuid.uuid4()` draws are a separate explicit
oracle `ids : Nat → String` with a running index). -/
structure RNG where
  ints : List Int
  bools : List Bool
deriving DecidableEq, Repr

/-- Current `randint(a, b)` draw: an arbitrary stream value clamped into
`[a, b]`, the guaranteed range of `random.randint(a, b)`. -/
def RNG.val (g : RNG) (a b : Int) : Int := max a (min b g.ints.headI)

/-- Advance the integer stream after a `randint` draw. -/
def RNG.next (g : RNG) : RNG := { g with ints := g.ints.tail }

/-- Current `random.random() < p` draw. -/
def RNG.coin (g : RNG) : Bool := g.bools.headI

/-- Advance the Bool stream after a probability draw. -/
def RNG.nextb (g : RNG) : RNG := { g with bools := g.bools.tail }

theorem RNG.le_val (g : RNG) (a b : Int) : a ≤ g.val a b := le_max_left _ _

theorem RNG.val_le (g : RNG) {a b : Int} (h : a ≤ b) : g.val a b ≤ b := by
  simp only [RNG.val]
  omega

/-- A concrete migration payload used as witness input: a weak (energy 7) and
hungry (hunger 95) creature snapshot. -/
def sampleData : CreatureData :=
  ⟨"c-1", "Fluffy", 60, 7, 50, 95, 1000, CreatureState.idle, Traits.empty, 0, 0⟩

/-- C10: `from_migration_data` sets energy to `max(incoming - 5, 10)` and
hunger to `min(incoming + 10, 100)`; hence arrival energy is always at least
10, incoming energy below 15 is floored to exactly 10, and incoming energy
below 10 strictly increases. -/
theorem C10_from_migration_data_formulas (now : Int) (data : CreatureData)
    (m : String) :
    (Creature.from_migration_data now data m).energy = max (data.energy - 5) 10 ∧
    (Creature.from_migration_data now data m).hunger = min (data.hunger + 10) 100 ∧
    10 ≤ (Creature.from_migration_data now data m).energy ∧
    (data.energy < 15 → (Creature.from_migration_data now data m).energy = 10) ∧
    (data.energy < 10 → data.energy < (Creature.from_migration_data now data m).energy) := by
  refine ⟨rfl, rfl, ?_, ?_, ?_⟩ <;> (simp only [Creature.from_migration_data]; omega)

/-- C10 witness: at the concrete payload `sampleData` (energy 7 < 15 and < 10)
the reconstructed creature has energy exactly 10, strictly above 7. -/
theorem C10_witness :
    sampleData.energy < 15 ∧ sampleData.energy < 10 ∧
    (Creature.from_migration_data 0 sampleData "m2").energy = 10 ∧
    sampleData.energy < (Creature.from_migration_data 0 sampleData "m2").energy :=
  ⟨by decide, by decide,
   (C10_from_migration_data_formulas 0 sampleData "m2").2.2.2.1 (by decide),
   (C10_from_migration_data_formulas 0 sampleData "m2").2.2.2.2 (by decide)⟩

/-- `IdleState.enter`: lose 1 energy, then adjust happiness by condition. -/
def IdleState.enter (now : Int) (c : Creature) (w : WorldState) (g : RNG) :
    Creature × WorldState × RNG :=
  let c := { c with energy := max 0 (c.energy - 1) }
  if c.energy > 70 ∧ c.hunger < 30 then
    ({ c with happiness := min 100 (c.happiness + g.val 1 3) }, w, g.next)
  else if c.energy < 30 ∨ c.hunger > 60 then
    ({ c with happiness := max 0 (c.happiness - g.val 1 2) }, w, g.next)
  else
    ({ c with happiness := max 0 (min 100 (c.happiness + g.val (-1) 1)) }, w, g.next)

/-- `IdleState.update`: death check, then hunger, then reproduction check. -/
def IdleState.update (now : Int) (c : Creature) (w : WorldState) (g : RNG) :
    Creature × Option CreatureState × RNG :=
  if c.age ≥ c.max_age ∨ c.energy ≤ 0 then (c, some CreatureState.dying, g)
  else if c.hunger > 70 ∧ w.has_food then (c, some CreatureState.hungry, g)
  else if c.age > 100 ∧ c.energy > 50 ∧ c.happiness > 60 ∧
      w.can_support_creature ∧ now - c.last_reproduced > 300 then
    (c, some CreatureState.reproducing, g)
  else (c, none, g)

/-- `HungryState.enter`: happiness penalty, extra energy drain. -/
def HungryState.enter (now : Int) (c : Creature) (w : WorldState) (g : RNG) :
    Creature × WorldState × RNG :=
  let c := { c with happiness := max 0 (c.happiness - g.val 3 7) }
  let g := g.next
  ({ c with energy := max 0 (c.energy - 2) }, w, g)

/-- `HungryState.update`: death check, deep-hunger happiness penalty, then
eat if food is available, or return to Idle once hunger ≤ 30. -/
def HungryState.update (now : Int) (c : Creature) (w : WorldState) (g : RNG) :
    Creature × Option CreatureState × RNG :=
  if c.age ≥ c.max_age ∨ c.energy ≤ 0 then (c, some CreatureState.dying, g)
  else
    let p : Creature × RNG :=
      if c.hunger > 80 then
        ({ c with happiness := max 0 (c.happiness - g.val 1 3) }, g.next)
      else (c, g)
    let c := p.1
    let g := p.2
    if w.has_food then (c, some CreatureState.eating, g)
    else if c.hunger ≤ 30 then (c, some CreatureState.idle, g)
    else (c, none, g)

/-- `EatingState.enter`: consume one food; on success restore hunger/energy and
boost happiness and `last_fed`, otherwise a happiness penalty. -/
def EatingState.enter (now : Int) (c : Creature) (w : WorldState) (g : RNG) :
    Creature × WorldState × RNG :=
  let p := w.consume_food 1
  let w := p.1
  if p.2 then
    let c := { c with hunger := max 0 (c.hunger - 30) }
    let c := { c with energy := min 100 (c.energy + 10) }
    ({ c with happiness := min 100 (c.happiness + g.val 8 15), last_fed := now },
     w, g.next)
  else
    ({ c with happiness := max 0 (c.happiness - g.val 5 10) }, w, g.next)

/-- `EatingState.update`: death check, otherwise return to Idle after one step. -/
def EatingState.update (now : Int) (c : Creature) (w : WorldState) (g : RNG) :
    Creature × Option CreatureState × RNG :=
  if c.age ≥ c.max_age ∨ c.energy ≤ 0 then (c, some CreatureState.dying, g)
  else (c, some CreatureState.idle, g)

/-- `ReproducingState.enter`: spend 20 energy, boost happiness, stamp
`last_reproduced`. -/
def ReproducingState.enter (now : Int) (c : Creature) (w : WorldState) (g : RNG) :
    Creature × WorldState × RNG :=
  let c := { c with energy := max 0 (c.energy - 20) }
  let c := { c with happiness := min 100 (c.happiness + g.val 15 25) }
  ({ c with last_reproduced := now }, w, g.next)

/-- `ReproducingState.create_offspring`: enqueue one offspring descriptor into
the parent's `pending_offspring` trait. -/
def ReproducingState.create_offspring (hsh : String → Int) (now : Int)
    (parent : Creature) (g : RNG) : Creature × RNG :=
  let offspring_name := parent.name ++ "-Jr-" ++ toString (now % 1000)
  let inherited_max_age := parent.max_age + (-50 + hsh parent.id % 100)
  let inherited_energy := min 100 (parent.energy + 10)
  let inherited_happiness := max 30 (min 70 (parent.happiness + g.val (-10) 10))
  let od : OffspringData :=
    { name := offspring_name, max_age := max 500 inherited_max_age,
      energy := inherited_energy, happiness := inherited_happiness,
      parent_id := parent.id, created_at := now }
  ({ parent with traits :=
      { parent.traits with
        pending_offspring := parent.traits.pending_offspring ++ [od] } },
   g.next)

/-- `ReproducingState.update`: death check; if the world has capacity enqueue
one offspring; always return to Idle. -/
def ReproducingState.update (hsh : String → Int) (now : Int) (c : Creature)
    (w : WorldState) (g : RNG) : Creature × Option CreatureState × RNG :=
  if c.age ≥ c.max_age ∨ c.energy ≤ 0 then (c, some CreatureState.dying, g)
  else
    let p : Creature × RNG :=
      if w.can_support_creature then ReproducingState.create_offspring hsh now c g
      else (c, g)
    (p.1, some CreatureState.idle, p.2)

/-- `DyingState.determine_death_cause` (called after energy was zeroed). -/
def DyingState.determine_death_cause (c : Creature) : String :=
  if c.age ≥ c.max_age then "old_age"
  else if c.energy ≤ 0 then "starvation"
  else "unknown"

/-- `DyingState.enter`: zero energy, happiness penalty, record death time and
cause in the traits. -/
def DyingState.enter (now : Int) (c : Creature) (w : WorldState) (g : RNG) :
    Creature × WorldState × RNG :=
  let c := { c with energy := 0 }
  let c := { c with happiness := max 0 (c.happiness - g.val 15 25) }
  ({ c with traits :=
      { c.traits with
        death_time := some now,
        death_cause := some (DyingState.determine_death_cause c) } },
   w, g.next)

/-- `DyingState.update`: terminal self-loop, happiness keeps dropping. -/
def DyingState.update (now : Int) (c : Creature) (w : WorldState) (g : RNG) :
    Creature × Option CreatureState × RNG :=
  ({ c with happiness := max 0 (c.happiness - g.val 1 3) }, none, g.next)

/-- Dispatch table for `enter` (the `BehaviorFSM.states` mapping). -/
def BehaviorFSM.state_enter (now : Int) (s : CreatureState) (c : Creature)
    (w : WorldState) (g : RNG) : Creature × WorldState × RNG :=
  match s with
  | CreatureState.idle => IdleState.enter now c w g
  | CreatureState.hungry => HungryState.enter now c w g
  | CreatureState.eating => EatingState.enter now c w g
  | CreatureState.reproducing => ReproducingState.enter now c w g
  | CreatureState.dying => DyingState.enter now c w g

/-- Dispatch table for `update` (the `BehaviorFSM.states` mapping). -/
def BehaviorFSM.state_update (hsh : String → Int) (now : Int) (s : CreatureState)
    (c : Creature) (w : WorldState) (g : RNG) :
    Creature × Option CreatureState × RNG :=
  match s with
  | CreatureState.idle => IdleState.update now c w g
  | CreatureState.hungry => HungryState.update now c w g
  | CreatureState.eating => EatingState.update now c w g
  | CreatureState.reproducing => ReproducingState.update hsh now c w g
  | CreatureState.dying => DyingState.update now c w g

/-- Every state's `exit` in `behavior.py` is `pass`. -/
def BehaviorFSM.state_exit (s : CreatureState) (c : Creature) (w : WorldState) :
    Creature × WorldState := (c, w)

/-- `BehaviorFSM.update_creature`: run the current state's `update`; if it
yields a different state, run `exit`, switch the state field, and run the new
state's `enter`. -/
def BehaviorFSM.update_creature (hsh : String → Int) (now : Int) (c : Creature)
    (w : WorldState) (g : RNG) : Creature × WorldState × RNG :=
  let r := BehaviorFSM.state_update hsh now c.state c w g
  let c1 := r.1
  let g1 := r.2.2
  match r.2.1 with
  | some s =>
    if s ≠ c1.state then
      let q := BehaviorFSM.state_exit c1.state c1 w
      BehaviorFSM.state_enter now s { q.1 with state := s } q.2 g1
    else (c1, w, g1)
  | none => (c1, w, g1)

/-- Ids of a registry, in iteration order. -/
def reg_ids (cs : List Creature) : List String := cs.map Creature.id

/-- Python dict assignment `creatures[c.id] = c`: replace in place if the key
exists, else append (insertion order). -/
def insertReg (cs : List Creature) (c : Creature) : List Creature :=
  if (reg_ids cs).contains c.id then
    cs.map (fun x => if x.id = c.id then c else x)
  else cs ++ [c]

/-- A `for creature in creatures.values()` loop mutating each creature with
random draws, threading the draw stream in iteration order. -/
def mapRng (f : Creature → RNG → Creature × RNG) :
    List Creature → RNG → List Creature × RNG
  | [], g => ([], g)
  | c :: cs, g =>
    let p := f c g
    let q := mapRng f cs p.2
    (p.1 :: q.1, q.2)

/-- A per-creature loop that also mutates the shared world state. -/
def mapRngW (f : Creature → WorldState → RNG → Creature × WorldState × RNG) :
    List Creature → WorldState → RNG → List Creature × WorldState × RNG
  | [], w, g => ([], w, g)
  | c :: cs, w, g =>
    let p := f c w g
    let q := mapRngW f cs p.2.1 p.2.2
    (p.1 :: q.1, q.2)

/-- `SimulationEngine._update_world` (called with the incremented tick count):
food regeneration, every-60-ticks temperature drift and 10%-chance
abundance/scarcity events (bulk happiness adjustment), then
`population_count := len(creatures)` and `last_update := now`. -/
def SimulationEngine.update_world (now tick_count : Int) (cs : List Creature)
    (w : WorldState) (g : RNG) : List Creature × WorldState × RNG :=
  let w := if w.food < w.max_food then
      { w with food := min w.max_food (w.food + w.food_regen_rate) } else w
  let r :=
    if tick_count % 60 = 0 then
      let w := { w with temperature := max 10 (min 30 (w.temperature + g.val (-2) 2)) }
      let g := g.next
      if g.coin then      -- random.random() < 0.1
        let g := g.nextb
        if g.coin then    -- random.random() < 0.5
          let g := g.nextb
          let w := { w with food := min w.max_food (w.food + 20) }
          let p := mapRng (fun c g =>
            ({ c with happiness := min 100 (c.happiness + g.val 5 10) }, g.next)) cs g
          (p.1, w, p.2)
        else
          let g := g.nextb
          let w := { w with food := max 0 (w.food - 15) }
          let p := mapRng (fun c g =>
            ({ c with happiness := max 0 (c.happiness - g.val 3 8) }, g.next)) cs g
          (p.1, w, p.2)
      else (cs, w, g.nextb)
    else (cs, w, g)
  (r.1, { r.2.1 with population_count := (r.1.length : Int), last_update := now }, r.2.2)

/-- The temperature-comfort happiness adjustment of `_update_creature`. -/
def SimulationEngine.temp_adjust (c : Creature) (w : WorldState) (g : RNG) :
    Creature × RNG :=
  if w.temperature < 15 ∨ w.temperature > 25 then
    ({ c with happiness := max 0 (c.happiness - g.val 0 2) }, g.next)
  else if 18 ≤ w.temperature ∧ w.temperature ≤ 22 then
    ({ c with happiness := min 100 (c.happiness + g.val 0 1) }, g.next)
  else (c, g)

/-- The population-density happiness adjustment of `_update_creature`
(`population_ratio = len(creatures) / max_population`; exact rational
division, written `Rat.divInt` — equal to `(pop : ℚ) / (maxpop : ℚ)` by
`Rat.divInt_eq_div` — so that concrete runs reduce in the kernel). -/
def SimulationEngine.dens_adjust (pop : Nat) (maxpop : Int) (c : Creature)
    (g : RNG) : Creature × RNG :=
  let dens : ℚ := Rat.divInt (pop : Int) maxpop
  if dens > mkRat 8 10 then
    ({ c with happiness := max 0 (c.happiness - g.val 1 2) }, g.next)
  else if mkRat 3 10 ≤ dens ∧ dens ≤ mkRat 7 10 then
    ({ c with happiness := min 100 (c.happiness + g.val 0 1) }, g.next)
  else if dens < mkRat 1 10 then
    ({ c with happiness := max 0 (c.happiness - g.val 0 1) }, g.next)
  else (c, g)

/-- The age-fraction (senescence) happiness adjustment of `_update_creature`
(`age_ratio = age / max_age`; exact rational division as `Rat.divInt`). -/
def SimulationEngine.age_adjust (c : Creature) (g : RNG) : Creature × RNG :=
  let afrac : ℚ := Rat.divInt c.age c.max_age
  if afrac > mkRat 9 10 then
    ({ c with happiness := max 0 (c.happiness - g.val 1 3) }, g.next)
  else if afrac > mkRat 8 10 then
    ({ c with happiness := max 0 (c.happiness - g.val 0 2) }, g.next)
  else if mkRat 2 10 ≤ afrac ∧ afrac ≤ mkRat 6 10 then
    ({ c with happiness := min 100 (c.happiness + g.val 0 1) }, g.next)
  else (c, g)

/-- The energy-level happiness adjustment of `_update_creature`. -/
def SimulationEngine.energy_adjust (c : Creature) (g : RNG) : Creature × RNG :=
  if c.energy < 20 then
    ({ c with happiness := max 0 (c.happiness - g.val 2 4) }, g.next)
  else if c.energy > 80 then
    ({ c with happiness := min 100 (c.happiness + g.val 0 2) }, g.next)
  else (c, g)

/-- `SimulationEngine._update_creature`: age and hunger advance, the four
environmental happiness adjustments (temperature band, population density,
age fraction, energy level), then the FSM step.  `pop` is `len(self.creatures)`
at call time. -/
def SimulationEngine.update_creature (hsh : String → Int) (now : Int) (pop : Nat)
    (maxpop : Int) (c : Creature) (w : WorldState) (g : RNG) :
    Creature × WorldState × RNG :=
  let c := { c with age := c.age + 1 }
  let c := { c with hunger := min 100 (c.hunger + 2) }
  let p := SimulationEngine.temp_adjust c w g
  let p := SimulationEngine.dens_adjust pop maxpop p.1 p.2
  let p := SimulationEngine.age_adjust p.1 p.2
  let p := SimulationEngine.energy_adjust p.1 p.2
  BehaviorFSM.update_creature hsh now p.1 w p.2

/-- The creature built inside `process_pending_offspring` for one offspring
descriptor (with the `Creature.__post_init__` defaults filled in). -/
def make_offspring (uid : String) (now : Int) (parent : Creature)
    (od : OffspringData) : Creature :=
  { id := uid, name := od.name, age := 0, energy := od.energy,
    happiness := od.happiness, hunger := 0,
    current_machine := parent.current_machine, max_age := od.max_age,
    state := CreatureState.idle,
    traits := { Traits.empty with
      parent_id := some od.parent_id, birth_time := some now,
      generation := some (parent.traits.generation.getD 0 + 1) },
    last_fed := now, last_reproduced := 0 }

/-- Inner loop of `process_pending_offspring` for one parent: each descriptor
spawns a creature (with a fresh uuid from the id supply) if the world has
spare capacity; the world is not mutated during the scan. -/
def spawn_for_parent (now : Int) (w : WorldState) (parent : Creature)
    (ids : Nat → String) : List OffspringData → Nat → List Creature × Nat
  | [], k => ([], k)
  | od :: rest, k =>
    if w.can_support_creature then
      let c := make_offspring (ids k) now parent od
      let q := spawn_for_parent now w parent ids rest (k + 1)
      (c :: q.1, q.2)
    else spawn_for_parent now w parent ids rest k

/-- `process_pending_offspring`: scan the registry, spawn the queued offspring
of each parent (capacity permitting) and clear the queues.  Returns (new
creatures, registry with cleared queues, remaining id supply). -/
def process_pending_offspring (now : Int) (w : WorldState) (ids : Nat → String) :
    List Creature → Nat → List Creature × List Creature × Nat
  | [], k => ([], [], k)
  | c :: rest, k =>
    if c.traits.pending_offspring ≠ [] then
      let p := spawn_for_parent now w c ids c.traits.pending_offspring k
      let c' := { c with traits := { c.traits with pending_offspring := [] } }
      let q := process_pending_offspring now w ids rest p.2
      (p.1 ++ q.1, c' :: q.2.1, q.2.2)
    else
      let q := process_pending_offspring now w ids rest k
      (q.1, c :: q.2.1, q.2.2)

/-- The mutable fields of `SimulationEngine` that the tick touches. -/
structure SimulationEngine where
  creatures : List Creature
  world_state : WorldState
  tick_count : Int
  births_this_session : Int
  deaths_this_session : Int
deriving DecidableEq, Repr

/-- `SimulationEngine.tick`: bump the tick count, update the world, update
every creature, sweep the Dying, materialize pending offspring (incrementing
`population_count` per birth and decrementing per death). -/
def SimulationEngine.tick (hsh : String → Int) (now : Int) (ids : Nat → String)
    (e : SimulationEngine) (g : RNG) (k : Nat) : SimulationEngine × RNG × Nat :=
  let tc := e.tick_count + 1
  let u := SimulationEngine.update_world now tc e.creatures e.world_state g
  let cs0 := u.1
  let w1 := u.2.1
  let g1 := u.2.2
  let v := mapRngW
    (SimulationEngine.update_creature hsh now cs0.length w1.max_population) cs0 w1 g1
  let cs1 := v.1
  let w2 := v.2.1
  let g2 := v.2.2
  let dead := cs1.filter (fun c => decide (c.state = CreatureState.dying))
  let cs2 := cs1.filter (fun c => decide (c.state ≠ CreatureState.dying))
  let w3 := { w2 with population_count := w2.population_count - (dead.length : Int) }
  let q := process_pending_offspring now w3 ids cs2 k
  let born := q.1
  let cs3 := q.2.1
  let cs4 := born.foldl insertReg cs3
  let w4 := { w3 with population_count := w3.population_count + (born.length : Int) }
  ({ creatures := cs4, world_state := w4, tick_count := tc,
     births_this_session := e.births_this_session + (born.length : Int),
     deaths_this_session := e.deaths_this_session + (dead.length : Int) },
   g2, q.2.2)

/-- The creature-update loop of `tick` when a per-agent update may raise
(`fails c.id` marks the agents whose update raises).  There is no per-agent
`try`/`except` in `tick`, so the first raising agent aborts the loop: the
`error` payload is the registry as mutated so far — agents before the fault
updated, the faulting agent and all later agents untouched. -/
def mapRngWExc (fails : String → Bool)
    (f : Creature → WorldState → RNG → Creature × WorldState × RNG) :
    List Creature → WorldState → RNG →
      Except (List Creature × WorldState × RNG) (List Creature × WorldState × RNG)
  | [], w, g => Except.ok ([], w, g)
  | c :: cs, w, g =>
    if fails c.id then Except.error (c :: cs, w, g)
    else
      let p := f c w g
      match mapRngWExc fails f cs p.2.1 p.2.2 with
      | Except.ok q => Except.ok (p.1 :: q.1, q.2)
      | Except.error q => Except.error (p.1 :: q.1, q.2)

/-- `SimulationEngine.tick` in the presence of per-agent update faults: the
body of `tick` has no handler, so a raise propagates out of `tick` after the
world update and the partial creature loop, skipping the dying sweep, the
offspring materialization and the count bookkeeping (`error` case). -/
def SimulationEngine.tick_exc (fails : String → Bool) (hsh : String → Int)
    (now : Int) (ids : Nat → String) (e : SimulationEngine) (g : RNG) (k : Nat) :
    Except (SimulationEngine × RNG × Nat) (SimulationEngine × RNG × Nat) :=
  let tc := e.tick_count + 1
  let u := SimulationEngine.update_world now tc e.creatures e.world_state g
  let cs0 := u.1
  let w1 := u.2.1
  let g1 := u.2.2
  match mapRngWExc fails
      (SimulationEngine.update_creature hsh now cs0.length w1.max_population)
      cs0 w1 g1 with
  | Except.error v =>
    Except.error
      ({ creatures := v.1, world_state := v.2.1, tick_count := tc,
         births_this_session := e.births_this_session,
         deaths_this_session := e.deaths_this_session }, v.2.2, k)
  | Except.ok v =>
    let cs1 := v.1
    let w2 := v.2.1
    let g2 := v.2.2
    let dead := cs1.filter (fun c => decide (c.state = CreatureState.dying))
    let cs2 := cs1.filter (fun c => decide (c.state ≠ CreatureState.dying))
    let w3 := { w2 with population_count := w2.population_count - (dead.length : Int) }
    let q := process_pending_offspring now w3 ids cs2 k
    let born := q.1
    let cs4 := born.foldl insertReg q.2.1
    let w4 := { w3 with population_count := w3.population_count + (born.length : Int) }
    Except.ok
      ({ creatures := cs4, world_state := w4, tick_count := tc,
         births_this_session := e.births_this_session + (born.length : Int),
         deaths_this_session := e.deaths_this_session + (dead.length : Int) },
       g2, q.2.2)

/-- One iteration of `SimulationEngine._simulation_loop`: `tick()` inside
`try`/`except` — a raising tick is caught and logged and the loop continues
with the partially-updated state. -/
def SimulationEngine.loop_step (fails : String → Bool) (hsh : String → Int)
    (now : Int) (ids : Nat → String) (e : SimulationEngine) (g : RNG) (k : Nat) :
    SimulationEngine × RNG × Nat :=
  match SimulationEngine.tick_exc fails hsh now ids e g k with
  | Except.ok r => r
  | Except.error r => r

/-- `SimulationEngine.add_creature`: `none` models the `ValueError` raised at
the population limit; otherwise a fresh creature with random happiness in
`[40, 60]` and the dataclass defaults is inserted and the count incremented. -/
def SimulationEngine.add_creature (now : Int) (machine_id name uid : String)
    (e : SimulationEngine) (g : RNG) : Option (SimulationEngine × Creature × RNG) :=
  if ¬ e.world_state.can_support_creature then none
  else
    let c : Creature :=
      { id := uid, name := name, age := 0, energy := 100,
        happiness := g.val 40 60, hunger := 0, current_machine := machine_id,
        max_age := 1000, state := CreatureState.idle,
        traits := { Traits.empty with generation := some 0, birth_time := some now },
        last_fed := now, last_reproduced := 0 }
    some ({ e with
        creatures := insertReg e.creatures c,
        world_state := { e.world_state with
          population_count := e.world_state.population_count + 1 } },
      c, g.next)

/-- `SimulationEngine.remove_creature`: delete by id and decrement the count
when present. -/
def SimulationEngine.remove_creature (e : SimulationEngine) (cid : String) :
    SimulationEngine × Bool :=
  if (reg_ids e.creatures).contains cid then
    ({ e with
        creatures := e.creatures.filter (fun c => decide (c.id ≠ cid)),
        world_state := { e.world_state with
          population_count := e.world_state.population_count - 1 } }, true)
  else (e, false)

/-- `SimulationEngine.force_reproduction`: set the creature's state to
Reproducing when it exists, has energy > 20, the world has capacity, and it is
not Dying; otherwise no change. -/
def SimulationEngine.force_reproduction (e : SimulationEngine) (cid : String) :
    SimulationEngine × Bool :=
  match e.creatures.find? (fun c => c.id == cid) with
  | none => (e, false)
  | some c =>
    if c.energy > 20 ∧ e.world_state.can_support_creature ∧
        c.state ≠ CreatureState.dying then
      ({ e with creatures := e.creatures.map (fun x =>
          if x.id = cid then { x with state := CreatureState.reproducing } else x) },
       true)
    else (e, false)

/-- `SimulationEngine.feed_all_creatures`: every creature with hunger > 50 gets
hunger −40 (floored), energy +10 (capped), happiness +randint(5,15) (capped);
returns the number fed. -/
def SimulationEngine.feed_all_creatures (e : SimulationEngine) (g : RNG) :
    SimulationEngine × RNG × Nat :=
  let p := mapRng (fun c g =>
    if c.hunger > 50 then
      let c := { c with hunger := max 0 (c.hunger - 40) }
      let c := { c with energy := min 100 (c.energy + 10) }
      ({ c with happiness := min 100 (c.happiness + g.val 5 15) }, g.next)
    else (c, g)) e.creatures g
  ({ e with creatures := p.1 }, p.2,
   (e.creatures.filter (fun c => decide (c.hunger > 50))).length)

/-- `MAX_MIGRATION_SIZE` from `network_config.py`. -/
def MAX_MIGRATION_SIZE : Nat := 3

/-- One `random.random() < MIGRATION_CHANCE` draw per eligible creature, in
order: the admission filter of `_attempt_migrations`. -/
def coin_filter : List Creature → List Bool → List Creature
  | [], _ => []
  | c :: cs, coins =>
    if coins.headI then c :: coin_filter cs coins.tail
    else coin_filter cs coins.tail

/-- The selection step of `NetworkManager._attempt_migrations`: filter the
registry by `can_migrate`, admit each eligible creature on its probability
draw, and truncate the batch to `MAX_MIGRATION_SIZE`. -/
def NetworkManager.attempt_migrations_select (cs : List Creature)
    (coins : List Bool) : List Creature :=
  let eligible := cs.filter (fun c => c.can_migrate)
  (coin_filter eligible coins).take MAX_MIGRATION_SIZE

/-- `NetworkManager._handle_creature_migration` on a parsed payload, with a
running simulation: reject with reason `"Population limit reached"` when the
world cannot support another creature, else rebuild the creature via
`from_migration_data`, insert it, increment `population_count`, and accept. -/
def NetworkManager.handle_creature_migration (now : Int) (machine_id : String)
    (e : SimulationEngine) (data : CreatureData) :
    SimulationEngine × Bool × String :=
  if ¬ e.world_state.can_support_creature then
    (e, false, "Population limit reached")
  else
    let migrated := Creature.from_migration_data now data machine_id
    ({ e with
        creatures := insertReg e.creatures migrated,
        world_state := { e.world_state with
          population_count := e.world_state.population_count + 1 } },
     true, "Migration accepted")

/-- The initiator side `NetworkManager._migrate_creature` after the round trip:
on `accepted=true` remove the creature locally; on `accepted=false` or a
transport failure (`none`) leave the local engine untouched. -/
def NetworkManager.migrate_creature (e : SimulationEngine) (c : Creature)
    (response : Option (Bool × String)) : SimulationEngine × Bool :=
  match response with
  | some (true, _) => ((SimulationEngine.remove_creature e c.id).1, true)
  | some (false, _) => (e, false)
  | none => (e, false)

/-- The resource-bounds part of the agent invariant claimed by the spec. -/
def InBounds (c : Creature) : Prop :=
  0 ≤ c.energy ∧ c.energy ≤ 100 ∧ 0 ≤ c.happiness ∧ c.happiness ≤ 100 ∧
  0 ≤ c.hunger ∧ c.hunger ≤ 100

instance (c : Creature) : Decidable (InBounds c) := by
  unfold InBounds; infer_instance

theorem InBounds_set_state (c : Creature) (s : CreatureState) :
    InBounds { c with state := s } ↔ InBounds c := by
  unfold InBounds; simp

theorem idle_enter_spec (now : Int) (c : Creature) (w : WorldState) (g : RNG) :
    (InBounds c → InBounds (IdleState.enter now c w g).1) ∧
    (IdleState.enter now c w g).1.age = c.age ∧
    (IdleState.enter now c w g).1.max_age = c.max_age ∧
    (IdleState.enter now c w g).1.id = c.id ∧
    (IdleState.enter now c w g).1.state = c.state ∧
    (IdleState.enter now c w g).2.1 = w := by
  have h1 := g.le_val 1 3
  have h2 := g.le_val 1 2
  unfold InBounds
  simp only [IdleState.enter, RNG.val] at *
  split_ifs <;> simp <;> omega

theorem hungry_enter_spec (now : Int) (c : Creature) (w : WorldState) (g : RNG) :
    (InBounds c → InBounds (HungryState.enter now c w g).1) ∧
    (HungryState.enter now c w g).1.age = c.age ∧
    (HungryState.enter now c w g).1.max_age = c.max_age ∧
    (HungryState.enter now c w g).1.id = c.id ∧
    (HungryState.enter now c w g).1.state = c.state ∧
    (HungryState.enter now c w g).2.1 = w := by
  have h1 := g.le_val 3 7
  unfold InBounds
  simp only [HungryState.enter, RNG.val] at *
  simp <;> omega

theorem eating_enter_spec (now : Int) (c : Creature) (w : WorldState) (g : RNG) :
    (InBounds c → InBounds (EatingState.enter now c w g).1) ∧
    (EatingState.enter now c w g).1.age = c.age ∧
    (EatingState.enter now c w g).1.max_age = c.max_age ∧
    (EatingState.enter now c w g).1.id = c.id ∧
    (EatingState.enter now c w g).1.state = c.state ∧
    (EatingState.enter now c w g).2.1.temperature = w.temperature ∧
    ((EatingState.enter now c w g).2.1.food = w.food - 1 ∨
      (EatingState.enter now c w g).2.1.food = w.food) ∧
    (1 ≤ w.food → (EatingState.enter now c w g).2.1.food = w.food - 1) := by
  have h1 := g.le_val 8 15
  have h2 := g.le_val 5 10
  unfold InBounds
  simp only [EatingState.enter, WorldState.consume_food, RNG.val] at *
  split_ifs <;> simp <;> omega

theorem repro_enter_spec (now : Int) (c : Creature) (w : WorldState) (g : RNG) :
    (InBounds c → InBounds (ReproducingState.enter now c w g).1) ∧
    (ReproducingState.enter now c w g).1.age = c.age ∧
    (ReproducingState.enter now c w g).1.max_age = c.max_age ∧
    (ReproducingState.enter now c w g).1.id = c.id ∧
    (ReproducingState.enter now c w g).1.state = c.state ∧
    (ReproducingState.enter now c w g).2.1 = w := by
  have h1 := g.le_val 15 25
  unfold InBounds
  simp only [ReproducingState.enter, RNG.val] at *
  simp <;> omega

theorem dying_enter_spec (now : Int) (c : Creature) (w : WorldState) (g : RNG) :
    (InBounds c → InBounds (DyingState.enter now c w g).1) ∧
    (DyingState.enter now c w g).1.age = c.age ∧
    (DyingState.enter now c w g).1.max_age = c.max_age ∧
    (DyingState.enter now c w g).1.id = c.id ∧
    (DyingState.enter now c w g).1.state = c.state ∧
    (DyingState.enter now c w g).2.1 = w := by
  have h1 := g.le_val 15 25
  unfold InBounds
  simp only [DyingState.enter, RNG.val] at *
  simp <;> omega

theorem idle_update_spec (now : Int) (c : Creature) (w : WorldState) (g : RNG) :
    (IdleState.update now c w g).1 = c := by
  simp only [IdleState.update]
  split_ifs <;> rfl

theorem hungry_update_spec (now : Int) (c : Creature) (w : WorldState) (g : RNG) :
    (InBounds c → InBounds (HungryState.update now c w g).1) ∧
    (HungryState.update now c w g).1.age = c.age ∧
    (HungryState.update now c w g).1.max_age = c.max_age ∧
    (HungryState.update now c w g).1.id = c.id ∧
    (HungryState.update now c w g).1.state = c.state ∧
    (HungryState.update now c w g).1.energy = c.energy ∧
    (HungryState.update now c w g).1.hunger = c.hunger := by
  have h1 := g.le_val 1 3
  unfold InBounds
  simp only [HungryState.update, RNG.val] at *
  split_ifs <;> simp <;> omega

theorem eating_update_spec (now : Int) (c : Creature) (w : WorldState) (g : RNG) :
    (EatingState.update now c w g).1 = c := by
  simp only [EatingState.update]
  split_ifs <;> rfl

theorem repro_update_spec (hsh : String → Int) (now : Int)
    (c : Creature) (w : WorldState) (g : RNG) :
    (InBounds c → InBounds (ReproducingState.update hsh now c w g).1) ∧
    (ReproducingState.update hsh now c w g).1.age = c.age ∧
    (ReproducingState.update hsh now c w g).1.max_age = c.max_age ∧
    (ReproducingState.update hsh now c w g).1.id = c.id ∧
    (ReproducingState.update hsh now c w g).1.state = c.state ∧
    (ReproducingState.update hsh now c w g).1.energy = c.energy ∧
    (ReproducingState.update hsh now c w g).1.hunger = c.hunger := by
  unfold InBounds
  simp only [ReproducingState.update, ReproducingState.create_offspring, RNG.val] at *
  split_ifs <;> simp

theorem dying_update_spec (now : Int) (c : Creature) (w : WorldState) (g : RNG) :
    (InBounds c → InBounds (DyingState.update now c w g).1) ∧
    (DyingState.update now c w g).1.age = c.age ∧
    (DyingState.update now c w g).1.max_age = c.max_age ∧
    (DyingState.update now c w g).1.id = c.id ∧
    (DyingState.update now c w g).1.state = c.state ∧
    (DyingState.update now c w g).1.energy = c.energy ∧
    (DyingState.update now c w g).1.hunger = c.hunger := by
  have h1 := g.le_val 1 3
  unfold InBounds
  simp only [DyingState.update, RNG.val] at *
  simp <;> omega

theorem BehaviorFSM.state_enter_spec (now : Int) (s : CreatureState) (c : Creature)
    (w : WorldState) (g : RNG) :
    (InBounds c → InBounds (BehaviorFSM.state_enter now s c w g).1) ∧
    (BehaviorFSM.state_enter now s c w g).1.age = c.age ∧
    (BehaviorFSM.state_enter now s c w g).1.max_age = c.max_age ∧
    (BehaviorFSM.state_enter now s c w g).1.id = c.id ∧
    (BehaviorFSM.state_enter now s c w g).1.state = c.state ∧
    (BehaviorFSM.state_enter now s c w g).2.1.temperature = w.temperature ∧
    ((BehaviorFSM.state_enter now s c w g).2.1.food = w.food - 1 ∨
      (BehaviorFSM.state_enter now s c w g).2.1.food = w.food) ∧
    (s ≠ CreatureState.eating → (BehaviorFSM.state_enter now s c w g).2.1 = w) := by
  cases s <;> simp only [BehaviorFSM.state_enter]
  case idle =>
    obtain ⟨hb, ha, hm, hi, hs, hw⟩ := idle_enter_spec now c w g
    exact ⟨hb, ha, hm, hi, hs, by rw [hw], Or.inr (by rw [hw]), fun _ => hw⟩
  case hungry =>
    obtain ⟨hb, ha, hm, hi, hs, hw⟩ := hungry_enter_spec now c w g
    exact ⟨hb, ha, hm, hi, hs, by rw [hw], Or.inr (by rw [hw]), fun _ => hw⟩
  case eating =>
    obtain ⟨hb, ha, hm, hi, hs, ht, hf, _⟩ := eating_enter_spec now c w g
    exact ⟨hb, ha, hm, hi, hs, ht, hf, fun hne => absurd rfl hne⟩
  case reproducing =>
    obtain ⟨hb, ha, hm, hi, hs, hw⟩ := repro_enter_spec now c w g
    exact ⟨hb, ha, hm, hi, hs, by rw [hw], Or.inr (by rw [hw]), fun _ => hw⟩
  case dying =>
    obtain ⟨hb, ha, hm, hi, hs, hw⟩ := dying_enter_spec now c w g
    exact ⟨hb, ha, hm, hi, hs, by rw [hw], Or.inr (by rw [hw]), fun _ => hw⟩

theorem BehaviorFSM.state_update_spec (hsh : String → Int) (now : Int)
    (s : CreatureState) (c : Creature) (w : WorldState) (g : RNG) :
    (InBounds c → InBounds (BehaviorFSM.state_update hsh now s c w g).1) ∧
    (BehaviorFSM.state_update hsh now s c w g).1.age = c.age ∧
    (BehaviorFSM.state_update hsh now s c w g).1.max_age = c.max_age ∧
    (BehaviorFSM.state_update hsh now s c w g).1.id = c.id ∧
    (BehaviorFSM.state_update hsh now s c w g).1.state = c.state ∧
    (BehaviorFSM.state_update hsh now s c w g).1.energy = c.energy ∧
    (BehaviorFSM.state_update hsh now s c w g).1.hunger = c.hunger := by
  cases s <;> simp only [BehaviorFSM.state_update]
  case idle => rw [idle_update_spec]; exact ⟨fun h => h, rfl, rfl, rfl, rfl, rfl, rfl⟩
  case hungry => exact hungry_update_spec now c w g
  case eating => rw [eating_update_spec]; exact ⟨fun h => h, rfl, rfl, rfl, rfl, rfl, rfl⟩
  case reproducing => exact repro_update_spec hsh now c w g
  case dying => exact dying_update_spec now c w g

/-- One FSM step preserves the resource bounds and never changes age, max-age
or id; it leaves the temperature alone and lowers food by at most one unit. -/
theorem fsm_update_creature_spec (hsh : String → Int) (now : Int)
    (c : Creature) (w : WorldState) (g : RNG) :
    (InBounds c → InBounds (BehaviorFSM.update_creature hsh now c w g).1) ∧
    (BehaviorFSM.update_creature hsh now c w g).1.age = c.age ∧
    (BehaviorFSM.update_creature hsh now c w g).1.max_age = c.max_age ∧
    (BehaviorFSM.update_creature hsh now c w g).1.id = c.id ∧
    (BehaviorFSM.update_creature hsh now c w g).2.1.temperature = w.temperature ∧
    ((BehaviorFSM.update_creature hsh now c w g).2.1.food = w.food - 1 ∨
      (BehaviorFSM.update_creature hsh now c w g).2.1.food = w.food) := by
  have hu := BehaviorFSM.state_update_spec hsh now c.state c w g
  simp only [BehaviorFSM.update_creature, BehaviorFSM.state_exit]
  obtain ⟨hb, ha, hm, hi, hs, _, _⟩ := hu
  cases hns : (BehaviorFSM.state_update hsh now c.state c w g).2.1 with
  | none => exact ⟨hb, ha, hm, hi, rfl, Or.inr rfl⟩
  | some s =>
    simp only []
    split_ifs with hd
    · set c1 := (BehaviorFSM.state_update hsh now c.state c w g).1
      have he := BehaviorFSM.state_enter_spec now s { c1 with state := s } w
        (BehaviorFSM.state_update hsh now c.state c w g).2.2
      obtain ⟨eb, ea, em, ei, _, et, ef, _⟩ := he
      refine ⟨fun h => eb (by rw [InBounds_set_state]; exact hb h), ?_, ?_, ?_, et, ef⟩
      · rw [ea]; exact ha
      · rw [em]; exact hm
      · rw [ei]; exact hi
    · exact ⟨hb, ha, hm, hi, rfl, Or.inr rfl⟩

/-- Relation between a creature before `_update_creature` and the partially
adjusted creature inside it: bounds hold, age advanced once, max-age and id
kept. -/
def Steps (c0 c : Creature) : Prop :=
  InBounds c ∧ c.age = c0.age + 1 ∧ c.max_age = c0.max_age ∧ c.id = c0.id

theorem SimulationEngine.temp_adjust_steps (c0 c : Creature) (w : WorldState)
    (g : RNG) (hs : Steps c0 c) : Steps c0 (SimulationEngine.temp_adjust c w g).1 := by
  unfold Steps InBounds at *
  simp only [SimulationEngine.temp_adjust, RNG.val]
  split_ifs <;> simp_all <;> try omega

theorem SimulationEngine.dens_adjust_steps (pop : Nat) (maxpop : Int)
    (c0 c : Creature) (g : RNG) (hs : Steps c0 c) :
    Steps c0 (SimulationEngine.dens_adjust pop maxpop c g).1 := by
  unfold Steps InBounds at *
  simp only [SimulationEngine.dens_adjust, RNG.val]
  split_ifs <;> simp_all <;> try omega

theorem SimulationEngine.age_adjust_steps (c0 c : Creature) (g : RNG)
    (hs : Steps c0 c) : Steps c0 (SimulationEngine.age_adjust c g).1 := by
  unfold Steps InBounds at *
  simp only [SimulationEngine.age_adjust, RNG.val]
  split_ifs <;> simp_all <;> try omega

theorem SimulationEngine.energy_adjust_steps (c0 c : Creature) (g : RNG)
    (hs : Steps c0 c) : Steps c0 (SimulationEngine.energy_adjust c g).1 := by
  unfold Steps InBounds at *
  simp only [SimulationEngine.energy_adjust, RNG.val]
  split_ifs <;> simp_all <;> try omega

theorem fsm_chain (hsh : String → Int) (now : Int) (c : Creature) (w : WorldState)
    (c' : Creature) (g' : RNG) (hs : Steps c c') :
    InBounds (BehaviorFSM.update_creature hsh now c' w g').1 ∧
    (BehaviorFSM.update_creature hsh now c' w g').1.age = c.age + 1 ∧
    (BehaviorFSM.update_creature hsh now c' w g').1.max_age = c.max_age ∧
    (BehaviorFSM.update_creature hsh now c' w g').1.id = c.id ∧
    (BehaviorFSM.update_creature hsh now c' w g').2.1.temperature = w.temperature ∧
    ((BehaviorFSM.update_creature hsh now c' w g').2.1.food = w.food - 1 ∨
      (BehaviorFSM.update_creature hsh now c' w g').2.1.food = w.food) := by
  obtain ⟨hb, ha, hm, hi⟩ := hs
  obtain ⟨qb, qa, qm, qi, qt, qf⟩ := fsm_update_creature_spec hsh now c' w g'
  exact ⟨qb hb, by rw [qa, ha], by rw [qm, hm], by rw [qi, hi], qt, qf⟩

/-- `SimulationEngine._update_creature` preserves the resource bounds,
advances age by exactly 1, keeps max-age and id, keeps the temperature, and
lowers food by at most one unit. -/
theorem engine_update_creature_spec (hsh : String → Int) (now : Int)
    (pop : Nat) (maxpop : Int) (c : Creature) (w : WorldState) (g : RNG)
    (h : InBounds c) :
    InBounds (SimulationEngine.update_creature hsh now pop maxpop c w g).1 ∧
    (SimulationEngine.update_creature hsh now pop maxpop c w g).1.age = c.age + 1 ∧
    (SimulationEngine.update_creature hsh now pop maxpop c w g).1.max_age = c.max_age ∧
    (SimulationEngine.update_creature hsh now pop maxpop c w g).1.id = c.id ∧
    (SimulationEngine.update_creature hsh now pop maxpop c w g).2.1.temperature
      = w.temperature ∧
    ((SimulationEngine.update_creature hsh now pop maxpop c w g).2.1.food
        = w.food - 1 ∨
      (SimulationEngine.update_creature hsh now pop maxpop c w g).2.1.food
        = w.food) := by
  simp only [SimulationEngine.update_creature]
  refine fsm_chain hsh now c w _ _ ?_
  apply SimulationEngine.energy_adjust_steps
  apply SimulationEngine.age_adjust_steps
  apply SimulationEngine.dens_adjust_steps
  apply SimulationEngine.temp_adjust_steps
  unfold Steps InBounds at *
  simp
  omega

theorem coin_filter_sublist (cs : List Creature) :
    ∀ coins : List Bool, (coin_filter cs coins).Sublist cs := by
  induction cs with
  | nil => intro coins; simp [coin_filter]
  | cons c cs ih =>
    intro coins
    simp only [coin_filter]
    split_ifs
    · exact (ih coins.tail).cons₂ c
    · exact (ih coins.tail).cons c

theorem coin_filter_true (cs : List Creature) :
    ∀ coins : List Bool, (∀ b ∈ coins, b = true) → cs.length ≤ coins.length →
      coin_filter cs coins = cs := by
  induction cs with
  | nil => intro coins _ _; rfl
  | cons c cs ih =>
    intro coins hall hlen
    match coins with
    | [] => simp at hlen
    | b :: coins =>
      have hb : b = true := hall b (List.mem_cons_self b coins)
      simp only [coin_filter, List.headI, hb, if_pos]
      simp only [List.tail_cons]
      rw [ih coins (fun x hx => hall x (List.mem_cons_of_mem b hx))
        (by simpa using Nat.le_of_succ_le_succ hlen)]

theorem coin_filter_false (cs : List Creature) :
    ∀ coins : List Bool, (∀ b ∈ coins, b = false) → coin_filter cs coins = [] := by
  induction cs with
  | nil => intro coins _; rfl
  | cons c cs ih =>
    intro coins hall
    have hh : coins.headI = false := by
      match coins with
      | [] => rfl
      | b :: coins => exact hall b (List.mem_cons_self b coins)
    simp only [coin_filter, hh, if_neg Bool.false_ne_true]
    exact ih coins.tail (fun x hx => hall x (List.mem_of_mem_tail hx))

/-- C7: an agent is migration-eligible iff it is neither Dying nor Reproducing,
has energy > 30 and age > 50; the outgoing batch is a sub-batch of the
eligible agents (each eligible agent admitted on its own probability draw, in
order), truncated to at most `MAX_MIGRATION_SIZE`; with every draw landing the
batch is exactly the first `MAX_MIGRATION_SIZE` eligible agents, with no draw
landing it is empty. -/
theorem C7_migration_eligibility_and_selection :
    (∀ c : Creature, c.can_migrate = true ↔
      (c.state ≠ CreatureState.dying ∧ c.state ≠ CreatureState.reproducing ∧
        30 < c.energy ∧ 50 < c.age)) ∧
    (∀ (cs : List Creature) (coins : List Bool),
      (NetworkManager.attempt_migrations_select cs coins).length ≤ MAX_MIGRATION_SIZE) ∧
    (∀ cs coins, ∀ m ∈ NetworkManager.attempt_migrations_select cs coins,
      m.can_migrate = true) ∧
    (∀ cs coins, (NetworkManager.attempt_migrations_select cs coins).Sublist
      (cs.filter (fun c => c.can_migrate))) ∧
    (∀ cs coins, (∀ b ∈ coins, b = true) →
      (cs.filter (fun c => c.can_migrate)).length ≤ coins.length →
      NetworkManager.attempt_migrations_select cs coins
        = (cs.filter (fun c => c.can_migrate)).take MAX_MIGRATION_SIZE) ∧
    (∀ cs coins, (∀ b ∈ coins, b = false) →
      NetworkManager.attempt_migrations_select cs coins = []) := by
  refine ⟨?_, ?_, ?_, ?_, ?_, ?_⟩
  · intro c
    simp [Creature.can_migrate]
    tauto
  · intro cs coins
    exact List.length_take_le _ _
  · intro cs coins m hm
    have h1 : m ∈ coin_filter (cs.filter (fun c => c.can_migrate)) coins :=
      List.take_subset _ _ hm
    have h2 : m ∈ cs.filter (fun c => c.can_migrate) :=
      (coin_filter_sublist _ coins).subset h1
    exact (List.mem_filter.mp h2).2
  · intro cs coins
    exact (List.take_sublist _ _).trans (coin_filter_sublist _ coins)
  · intro cs coins hall hlen
    simp only [NetworkManager.attempt_migrations_select]
    rw [coin_filter_true _ coins hall hlen]
  · intro cs coins hall
    simp only [NetworkManager.attempt_migrations_select]
    rw [coin_filter_false _ coins hall]
    rfl

/-- A migration-eligible sample creature. -/
def eligC : Creature :=
  ⟨"e-1", "Rover", 60, 50, 50, 10, "m1", 1000, CreatureState.idle, Traits.empty, 0, 0⟩

/-- A Dying sample creature (never migration-eligible). -/
def dyingC : Creature :=
  ⟨"d-1", "Grim", 10, 0, 50, 0, "m1", 1000, CreatureState.dying, Traits.empty, 0, 0⟩

/-- C7 witness: on a concrete registry of one eligible and one Dying creature,
with both draws landing, the batch is exactly the eligible creature. -/
theorem C7_witness :
    (∀ b ∈ [true, true], b = true) ∧
    ([eligC, dyingC].filter (fun c => c.can_migrate)).length ≤ [true, true].length ∧
    NetworkManager.attempt_migrations_select [eligC, dyingC] [true, true]
      = ([eligC, dyingC].filter (fun c => c.can_migrate)).take MAX_MIGRATION_SIZE ∧
    (∀ b ∈ [false], b = false) ∧
    NetworkManager.attempt_migrations_select [eligC, dyingC] [false] = [] :=
  ⟨by decide, by decide,
   C7_migration_eligibility_and_selection.2.2.2.2.1 [eligC, dyingC] [true, true]
     (by decide) (by decide),
   by decide,
   C7_migration_eligibility_and_selection.2.2.2.2.2 [eligC, dyingC] [false] (by decide)⟩

/-- A world at its population limit (50 of 50). -/
def fullWorld : WorldState := ⟨100, 100, 20, 50, 50, 1, 0⟩

/-- A destination engine with no spare capacity. -/
def fullEngine : SimulationEngine := ⟨[], fullWorld, 0, 0, 0⟩

/-- A world with spare capacity (0 of 50). -/
def spareWorld : WorldState := ⟨100, 100, 20, 0, 50, 1, 0⟩

/-- A destination engine with spare capacity. -/
def spareEngine : SimulationEngine := ⟨[], spareWorld, 0, 0, 0⟩

/-- C1 counterexample to the claimed reason string: a destination at its
population limit rejects the migration (`accepted=false`) but the reason it
sends is `"Population limit reached"`, not `"capacity"`. -/
theorem C1_counterexample :
    (NetworkManager.handle_creature_migration 0 "m2" fullEngine sampleData).2.1 = false ∧
    (NetworkManager.handle_creature_migration 0 "m2" fullEngine sampleData).2.2
      ≠ "capacity" := by
  constructor <;> decide

/-- C1 (amended: the rejection reason string is `"Population limit reached"`):
the destination accepts iff `population_count < max_population` at acceptance
time; on acceptance the rebuilt agent is inserted and the count incremented;
on rejection the engine is unchanged and the response carries
`accepted=false, reason="Population limit reached"`; an initiator receiving
`accepted=false` (or nothing) leaves its own registry untouched. -/
theorem C1_capacity_gate (now : Int) (mid : String) (e : SimulationEngine)
    (data : CreatureData) :
    ((NetworkManager.handle_creature_migration now mid e data).2.1 = true ↔
      e.world_state.population_count < e.world_state.max_population) ∧
    (e.world_state.population_count < e.world_state.max_population →
      (NetworkManager.handle_creature_migration now mid e data).1.creatures
        = insertReg e.creatures (Creature.from_migration_data now data mid) ∧
      (NetworkManager.handle_creature_migration now mid e data).1.world_state.population_count
        = e.world_state.population_count + 1) ∧
    (¬ e.world_state.population_count < e.world_state.max_population →
      (NetworkManager.handle_creature_migration now mid e data).2.1 = false ∧
      (NetworkManager.handle_creature_migration now mid e data).2.2
        = "Population limit reached" ∧
      (NetworkManager.handle_creature_migration now mid e data).1 = e) ∧
    (∀ (c : Creature) (reason : String),
      (NetworkManager.migrate_creature e c (some (false, reason))).1 = e) ∧
    (∀ c : Creature, (NetworkManager.migrate_creature e c none).1 = e) := by
  simp only [NetworkManager.handle_creature_migration, NetworkManager.migrate_creature,
    WorldState.can_support_creature]
  by_cases h : e.world_state.population_count < e.world_state.max_population <;>
    simp [h]

/-- C1 witness: on a spare-capacity engine the count is incremented on accept;
on a full engine the rejection carries the actual reason string. -/
theorem C1_witness :
    spareEngine.world_state.population_count < spareEngine.world_state.max_population ∧
    (NetworkManager.handle_creature_migration 0 "m2" spareEngine sampleData).1.world_state.population_count
      = spareEngine.world_state.population_count + 1 ∧
    ¬ fullEngine.world_state.population_count < fullEngine.world_state.max_population ∧
    (NetworkManager.handle_creature_migration 0 "m2" fullEngine sampleData).2.2
      = "Population limit reached" :=
  ⟨by decide, ((C1_capacity_gate 0 "m2" spareEngine sampleData).2.1 (by decide)).2,
   by decide, ((C1_capacity_gate 0 "m2" fullEngine sampleData).2.2.1 (by decide)).2.1⟩

/-- A healthy migration payload: energy 50, hunger 20, no prior migrations. -/
def sampleData2 : CreatureData :=
  ⟨"c-2", "Scout", 70, 50, 50, 20, 1000, CreatureState.idle, Traits.empty, 0, 0⟩

/-- C8 counterexample: an accepted migration whose payload has energy 7 and
hunger 95 arrives with energy 10 (not 7−5) and hunger 100 (not 95+10): the
migration cost is floored at energy 10 and the hunger penalty capped at 100,
so "energy reduced by the cost, hunger increased by the penalty" fails as
stated. -/
theorem C8_counterexample :
    (NetworkManager.handle_creature_migration 0 "m2" spareEngine sampleData).2.1 = true ∧
    (Creature.from_migration_data 0 sampleData "m2").hunger ≠ sampleData.hunger + 10 ∧
    (Creature.from_migration_data 0 sampleData "m2").energy ≠ sampleData.energy - 5 := by
  refine ⟨?_, ?_, ?_⟩ <;> decide

/-- C8 (amended: the energy reduction is floored at 10 and the hunger increase
is capped at 100; for payloads with energy ≥ 15 and hunger ≤ 90 they are the
exact cost −5 and penalty +10): an accepted migration rebuilds the agent under
the destination identity with the clamped energy/hunger adjustments, stamps
`last_migration` and an incremented `migration_count` (1 on a first
migration), inserts it into the destination registry, and increments the
destination `population_count` by one. -/
theorem C8_migration_accept_effects (now : Int) (mid : String)
    (e : SimulationEngine) (data : CreatureData)
    (hc : e.world_state.population_count < e.world_state.max_population) :
    (NetworkManager.handle_creature_migration now mid e data).2.1 = true ∧
    (NetworkManager.handle_creature_migration now mid e data).1.creatures
      = insertReg e.creatures (Creature.from_migration_data now data mid) ∧
    (NetworkManager.handle_creature_migration now mid e data).1.world_state.population_count
      = e.world_state.population_count + 1 ∧
    (Creature.from_migration_data now data mid).current_machine = mid ∧
    (Creature.from_migration_data now data mid).energy = max (data.energy - 5) 10 ∧
    (Creature.from_migration_data now data mid).hunger = min (data.hunger + 10) 100 ∧
    (15 ≤ data.energy →
      (Creature.from_migration_data now data mid).energy = data.energy - 5) ∧
    (data.hunger ≤ 90 →
      (Creature.from_migration_data now data mid).hunger = data.hunger + 10) ∧
    (Creature.from_migration_data now data mid).traits.last_migration = some now ∧
    (Creature.from_migration_data now data mid).traits.migration_count
      = some (data.traits.migration_count.getD 0 + 1) ∧
    (data.traits.migration_count = none →
      (Creature.from_migration_data now data mid).traits.migration_count = some 1) := by
  refine ⟨?_, ?_, ?_, rfl, rfl, rfl, ?_, ?_, rfl, rfl, ?_⟩
  · simp [NetworkManager.handle_creature_migration, WorldState.can_support_creature, hc]
  · simp [NetworkManager.handle_creature_migration, WorldState.can_support_creature, hc]
  · simp [NetworkManager.handle_creature_migration, WorldState.can_support_creature, hc]
  · intro h
    simp only [Creature.from_migration_data]
    omega
  · intro h
    simp only [Creature.from_migration_data]
    omega
  · intro h
    simp [Creature.from_migration_data, h]

/-- C8 witness: a first migration of a healthy payload (energy 50, hunger 20)
into a spare-capacity destination is accepted with energy 45, hunger 30 and
`migration_count = 1`. -/
theorem C8_witness :
    spareEngine.world_state.population_count < spareEngine.world_state.max_population ∧
    15 ≤ sampleData2.energy ∧ sampleData2.hunger ≤ 90 ∧
    sampleData2.traits.migration_count = none ∧
    (NetworkManager.handle_creature_migration 0 "m2" spareEngine sampleData2).2.1 = true ∧
    (Creature.from_migration_data 0 sampleData2 "m2").energy = sampleData2.energy - 5 ∧
    (Creature.from_migration_data 0 sampleData2 "m2").hunger = sampleData2.hunger + 10 ∧
    (Creature.from_migration_data 0 sampleData2 "m2").traits.migration_count = some 1 :=
  ⟨by decide, by decide, by decide, by decide,
   (C8_migration_accept_effects 0 "m2" spareEngine sampleData2 (by decide)).1,
   (C8_migration_accept_effects 0 "m2" spareEngine sampleData2 (by decide)).2.2.2.2.2.2.1
     (by decide),
   (C8_migration_accept_effects 0 "m2" spareEngine sampleData2 (by decide)).2.2.2.2.2.2.2.1
     (by decide),
   (C8_migration_accept_effects 0 "m2" spareEngine sampleData2 (by decide)).2.2.2.2.2.2.2.2.2.2
     (by decide)⟩

/-- A deterministic concrete oracle bundle for witnesses. -/
def g0 : RNG := ⟨[], []⟩

/-- An Eating creature that has just reached its max age. -/
def oldEater : Creature :=
  ⟨"o-1", "Elder", 1000, 50, 50, 40, "m1", 1000, CreatureState.eating, Traits.empty, 0, 0⟩

/-- A Hungry creature with food available and no death condition. -/
def hungryC : Creature :=
  ⟨"h-1", "Nibbles", 60, 50, 50, 75, "m1", 1000, CreatureState.hungry, Traits.empty, 0, 0⟩

/-- A young Eating creature with no death condition. -/
def youngEater : Creature :=
  ⟨"y-1", "Snack", 60, 50, 50, 40, "m1", 1000, CreatureState.eating, Traits.empty, 0, 0⟩

/-- C6 counterexample: an Eating agent at `age = max_age` does not return to
Idle on the next FSM update — the death check fires first and it transitions
to Dying. -/
theorem C6_counterexample :
    oldEater.state = CreatureState.eating ∧
    (BehaviorFSM.update_creature (fun _ => 0) 0 oldEater spareWorld g0).1.state
      = CreatureState.dying := by
  constructor <;> decide

/-- C6 (amended: the return to Idle happens unless the death check
`age ≥ max_age ∨ energy ≤ 0` fires, in which case the agent transitions to
Dying — either way Eating never lasts more than one step): entering Eating
with food present consumes exactly one unit, lowers hunger by up to 30
(floored at 0), raises energy by up to 10 (capped at 100), does not decrease
happiness, and stamps `last_fed`; a Hungry agent with food and no death
condition transitions to Eating consuming exactly one food unit. -/
theorem C6_eating_semantics :
    (∀ (now : Int) (c : Creature) (w : WorldState) (g : RNG), 1 ≤ w.food →
      (EatingState.enter now c w g).2.1.food = w.food - 1 ∧
      (EatingState.enter now c w g).1.hunger = max 0 (c.hunger - 30) ∧
      (EatingState.enter now c w g).1.energy = min 100 (c.energy + 10) ∧
      (c.happiness ≤ 100 → c.happiness ≤ (EatingState.enter now c w g).1.happiness) ∧
      (EatingState.enter now c w g).1.last_fed = now) ∧
    (∀ (hsh : String → Int) (now : Int) (c : Creature) (w : WorldState) (g : RNG),
      c.state = CreatureState.hungry → 1 ≤ w.food →
      c.age < c.max_age → 0 < c.energy →
      (BehaviorFSM.update_creature hsh now c w g).1.state = CreatureState.eating ∧
      (BehaviorFSM.update_creature hsh now c w g).2.1.food = w.food - 1) ∧
    (∀ (hsh : String → Int) (now : Int) (c : Creature) (w : WorldState) (g : RNG),
      c.state = CreatureState.eating →
      (BehaviorFSM.update_creature hsh now c w g).1.state = CreatureState.idle ∨
      (BehaviorFSM.update_creature hsh now c w g).1.state = CreatureState.dying) ∧
    (∀ (hsh : String → Int) (now : Int) (c : Creature) (w : WorldState) (g : RNG),
      c.state = CreatureState.eating → c.age < c.max_age → 0 < c.energy →
      (BehaviorFSM.update_creature hsh now c w g).1.state = CreatureState.idle) ∧
    (∀ (hsh : String → Int) (now : Int) (c : Creature) (w : WorldState) (g : RNG),
      c.state = CreatureState.eating → (c.max_age ≤ c.age ∨ c.energy ≤ 0) →
      (BehaviorFSM.update_creature hsh now c w g).1.state = CreatureState.dying) := by
  refine ⟨?_, ?_, ?_, ?_, ?_⟩
  · intro now c w g hf
    have hc : w.consume_food 1 = ({ w with food := w.food - 1 }, true) := by
      simp only [WorldState.consume_food]
      rw [if_pos hf]
    simp only [EatingState.enter, hc, RNG.val]
    refine ⟨by simp, by simp, by simp, ?_, by simp⟩
    intro hh
    simp
    omega
  · intro hsh now c w g hs hf ha he
    have hdead : ¬(c.age ≥ c.max_age ∨ c.energy ≤ 0) := by omega
    have hfood : w.has_food = true := by simp [WorldState.has_food]; omega
    have hc : w.consume_food 1 = ({ w with food := w.food - 1 }, true) := by
      simp only [WorldState.consume_food]
      rw [if_pos hf]
    by_cases hh : c.hunger > 80 <;>
      simp [BehaviorFSM.update_creature, BehaviorFSM.state_update, hs,
        HungryState.update, hdead, hfood, BehaviorFSM.state_exit,
        BehaviorFSM.state_enter, EatingState.enter, hc, hh]
  · intro hsh now c w g hs
    by_cases hdead : c.age ≥ c.max_age ∨ c.energy ≤ 0
    · right
      simp [BehaviorFSM.update_creature, BehaviorFSM.state_update, hs,
        EatingState.update, hdead, BehaviorFSM.state_exit, BehaviorFSM.state_enter,
        DyingState.enter]
    · left
      simp [BehaviorFSM.update_creature, BehaviorFSM.state_update, hs,
        EatingState.update, hdead, BehaviorFSM.state_exit, BehaviorFSM.state_enter,
        IdleState.enter]
      split_ifs <;> simp
  · intro hsh now c w g hs ha he
    have hdead : ¬(c.age ≥ c.max_age ∨ c.energy ≤ 0) := by omega
    simp [BehaviorFSM.update_creature, BehaviorFSM.state_update, hs,
      EatingState.update, hdead, BehaviorFSM.state_exit, BehaviorFSM.state_enter,
      IdleState.enter]
    split_ifs <;> simp
  · intro hsh now c w g hs hdead
    have hd : c.age ≥ c.max_age ∨ c.energy ≤ 0 := by omega
    simp [BehaviorFSM.update_creature, BehaviorFSM.state_update, hs,
      EatingState.update, hd, BehaviorFSM.state_exit, BehaviorFSM.state_enter,
      DyingState.enter]

/-- C6 witness: concrete runs — a Hungry creature with food transitions to
Eating with the food count dropping from 100 to 99, a young Eating creature
returns to Idle, and the old Eating creature dies instead. -/
theorem C6_witness :
    (1 ≤ spareWorld.food ∧
      (EatingState.enter 5 eligC spareWorld g0).2.1.food = spareWorld.food - 1 ∧
      (EatingState.enter 5 eligC spareWorld g0).1.last_fed = 5) ∧
    (hungryC.state = CreatureState.hungry ∧
      (BehaviorFSM.update_creature (fun _ => 0) 0 hungryC spareWorld g0).1.state
        = CreatureState.eating ∧
      (BehaviorFSM.update_creature (fun _ => 0) 0 hungryC spareWorld g0).2.1.food
        = spareWorld.food - 1) ∧
    (BehaviorFSM.update_creature (fun _ => 0) 0 youngEater spareWorld g0).1.state
      = CreatureState.idle :=
  ⟨⟨by decide, (C6_eating_semantics.1 5 eligC spareWorld g0 (by decide)).1,
    (C6_eating_semantics.1 5 eligC spareWorld g0 (by decide)).2.2.2.2⟩,
   ⟨by decide,
    (C6_eating_semantics.2.1 (fun _ => 0) 0 hungryC spareWorld g0 (by decide)
      (by decide) (by decide) (by decide)).1,
    (C6_eating_semantics.2.1 (fun _ => 0) 0 hungryC spareWorld g0 (by decide)
      (by decide) (by decide) (by decide)).2⟩,
   C6_eating_semantics.2.2.2.1 (fun _ => 0) 0 youngEater spareWorld g0 (by decide)
     (by decide) (by decide)⟩

theorem fsm_update_creature_world (hsh : String → Int) (now : Int)
    (c : Creature) (w : WorldState) (g : RNG) :
    (BehaviorFSM.update_creature hsh now c w g).2.1.temperature = w.temperature ∧
    ((BehaviorFSM.update_creature hsh now c w g).2.1.food = w.food ∨
      ((BehaviorFSM.update_creature hsh now c w g).1.state = CreatureState.eating ∧
        (BehaviorFSM.update_creature hsh now c w g).2.1.food = w.food - 1)) := by
  simp only [BehaviorFSM.update_creature, BehaviorFSM.state_exit]
  cases hns : (BehaviorFSM.state_update hsh now c.state c w g).2.1 with
  | none => exact ⟨rfl, Or.inl rfl⟩
  | some s =>
    simp only []
    split_ifs with hd
    · by_cases hse : s = CreatureState.eating
      · subst hse
        obtain ⟨_, _, _, _, hst, ht, hfd, _⟩ :=
          BehaviorFSM.state_enter_spec now CreatureState.eating
            { (BehaviorFSM.state_update hsh now c.state c w g).1 with
              state := CreatureState.eating } w
            (BehaviorFSM.state_update hsh now c.state c w g).2.2
        refine ⟨ht, ?_⟩
        rcases hfd with h | h
        · exact Or.inr ⟨by simp [hst], h⟩
        · exact Or.inl h
      · obtain ⟨_, _, _, _, _, _, _, hw⟩ :=
          BehaviorFSM.state_enter_spec now s
            { (BehaviorFSM.state_update hsh now c.state c w g).1 with state := s } w
            (BehaviorFSM.state_update hsh now c.state c w g).2.2
        rw [hw hse]
        exact ⟨rfl, Or.inl rfl⟩
    · exact ⟨rfl, Or.inl rfl⟩

theorem engine_update_creature_world (hsh : String → Int) (now : Int)
    (pop : Nat) (mp : Int) (c : Creature) (w : WorldState) (g : RNG) :
    (SimulationEngine.update_creature hsh now pop mp c w g).2.1.temperature
      = w.temperature ∧
    ((SimulationEngine.update_creature hsh now pop mp c w g).2.1.food = w.food ∨
      (SimulationEngine.update_creature hsh now pop mp c w g).2.1.food = w.food - 1) := by
  simp only [SimulationEngine.update_creature]
  refine ⟨(fsm_update_creature_world hsh now _ w _).1, ?_⟩
  rcases (fsm_update_creature_world hsh now _ w _).2 with h | h
  · exact Or.inl h
  · exact Or.inr h.2

/-- C9 counterexample: `EatingState.enter` — an FSM `enter`, not the per-tick
world update — mutates the world's food (100 becomes 99). -/
theorem C9_counterexample :
    (EatingState.enter 0 eligC spareWorld g0).2.1.food ≠ spareWorld.food := by
  decide

/-- C9 (amended: temperature is mutated only by the per-tick world update, and
food is mutated only by the per-tick world update and by Eating entry's
one-unit consumption): a non-Eating `enter` leaves the world untouched; one
FSM step keeps the temperature and changes food only by the one-unit
consumption of an Eating entry; the engine-level per-creature update does the
same; migration handling and the front-end commands (add, remove, force
reproduction, emergency feeding, migration initiation) never change food or
temperature. -/
theorem C9_world_frame :
    (∀ (now : Int) (s : CreatureState) (c : Creature) (w : WorldState) (g : RNG),
      s ≠ CreatureState.eating → (BehaviorFSM.state_enter now s c w g).2.1 = w) ∧
    (∀ (hsh : String → Int) (now : Int) (c : Creature) (w : WorldState) (g : RNG),
      (BehaviorFSM.update_creature hsh now c w g).2.1.temperature = w.temperature ∧
      ((BehaviorFSM.update_creature hsh now c w g).2.1.food = w.food ∨
        ((BehaviorFSM.update_creature hsh now c w g).1.state = CreatureState.eating ∧
          (BehaviorFSM.update_creature hsh now c w g).2.1.food = w.food - 1))) ∧
    (∀ (hsh : String → Int) (now : Int) (pop : Nat) (mp : Int) (c : Creature)
        (w : WorldState) (g : RNG),
      (SimulationEngine.update_creature hsh now pop mp c w g).2.1.temperature
        = w.temperature ∧
      ((SimulationEngine.update_creature hsh now pop mp c w g).2.1.food = w.food ∨
        (SimulationEngine.update_creature hsh now pop mp c w g).2.1.food = w.food - 1)) ∧
    (∀ (now : Int) (mid : String) (e : SimulationEngine) (data : CreatureData),
      (NetworkManager.handle_creature_migration now mid e data).1.world_state.food
        = e.world_state.food ∧
      (NetworkManager.handle_creature_migration now mid e data).1.world_state.temperature
        = e.world_state.temperature) ∧
    (∀ (e : SimulationEngine) (g : RNG),
      (SimulationEngine.feed_all_creatures e g).1.world_state = e.world_state) ∧
    (∀ (e : SimulationEngine) (cid : String),
      (SimulationEngine.force_reproduction e cid).1.world_state = e.world_state) ∧
    (∀ (now : Int) (mid nm uid : String) (e : SimulationEngine) (g : RNG),
      ((SimulationEngine.add_creature now mid nm uid e g).all fun r =>
        r.1.world_state.food == e.world_state.food &&
        r.1.world_state.temperature == e.world_state.temperature) = true) ∧
    (∀ (e : SimulationEngine) (cid : String),
      (SimulationEngine.remove_creature e cid).1.world_state.food = e.world_state.food ∧
      (SimulationEngine.remove_creature e cid).1.world_state.temperature
        = e.world_state.temperature) ∧
    (∀ (e : SimulationEngine) (c : Creature) (resp : Option (Bool × String)),
      (NetworkManager.migrate_creature e c resp).1.world_state.food
        = e.world_state.food ∧
      (NetworkManager.migrate_creature e c resp).1.world_state.temperature
        = e.world_state.temperature) := by
  refine ⟨?_, fsm_update_creature_world, engine_update_creature_world,
    ?_, ?_, ?_, ?_, ?_, ?_⟩
  · intro now s c w g hs
    exact (BehaviorFSM.state_enter_spec now s c w g).2.2.2.2.2.2.2 hs
  · intro now mid e data
    simp only [NetworkManager.handle_creature_migration]
    split_ifs <;> simp
  · intro e g
    simp [SimulationEngine.feed_all_creatures]
  · intro e cid
    simp only [SimulationEngine.force_reproduction]
    cases e.creatures.find? (fun c => c.id == cid) with
    | none => rfl
    | some c => simp only []; split_ifs <;> rfl
  · intro now mid nm uid e g
    simp only [SimulationEngine.add_creature]
    split_ifs <;> simp
  · intro e cid
    simp only [SimulationEngine.remove_creature]
    split_ifs <;> simp
  · intro e c resp
    rcases resp with _ | ⟨b, reason⟩
    · exact ⟨rfl, rfl⟩
    · cases b
      · exact ⟨rfl, rfl⟩
      · simp only [NetworkManager.migrate_creature, SimulationEngine.remove_creature]
        split_ifs <;> simp

/-- C9 witness: a concrete non-Eating enter (Idle) leaves the concrete world
untouched. -/
theorem C9_witness :
    CreatureState.idle ≠ CreatureState.eating ∧
    (BehaviorFSM.state_enter 0 CreatureState.idle eligC spareWorld g0).2.1 = spareWorld :=
  ⟨by decide, C9_world_frame.1 0 CreatureState.idle eligC spareWorld g0 (by decide)⟩

theorem mem_insertReg (acc : List Creature) (b x : Creature)
    (hx : x ∈ insertReg acc b) : x ∈ acc ∨ x = b := by
  simp only [insertReg] at hx
  split_ifs at hx with h
  · rcases List.mem_map.mp hx with ⟨y, hy, he⟩
    by_cases hid : y.id = b.id
    · rw [if_pos hid] at he
      exact Or.inr he.symm
    · rw [if_neg hid] at he
      exact Or.inl (he ▸ hy)
  · rcases List.mem_append.mp hx with h1 | h1
    · exact Or.inl h1
    · exact Or.inr (by simpa using h1)

theorem mem_foldl_insertReg (born : List Creature) :
    ∀ (acc : List Creature) (x : Creature), x ∈ born.foldl insertReg acc →
      x ∈ acc ∨ x ∈ born := by
  induction born with
  | nil => intro acc x hx; exact Or.inl hx
  | cons b born ih =>
    intro acc x hx
    rcases ih (insertReg acc b) x hx with h | h
    · rcases mem_insertReg acc b x h with h1 | h1
      · exact Or.inl h1
      · exact Or.inr (by simp [h1])
    · exact Or.inr (List.mem_cons_of_mem b h)

theorem spawn_mem (now : Int) (w : WorldState) (parent : Creature)
    (ids : Nat → String) :
    ∀ (lst : List OffspringData) (k : Nat),
      ∀ b ∈ (spawn_for_parent now w parent ids lst k).1,
        ∃ od ∈ lst, ∃ i : Nat, b = make_offspring (ids i) now parent od := by
  intro lst
  induction lst with
  | nil => intro k b hb; simp [spawn_for_parent] at hb
  | cons od rest ih =>
    intro k b hb
    simp only [spawn_for_parent] at hb
    split_ifs at hb with h
    · rcases List.mem_cons.mp hb with hb1 | hb1
      · exact ⟨od, List.mem_cons_self od rest, k, hb1⟩
      · rcases ih (k + 1) b hb1 with ⟨od', hod', i, hi⟩
        exact ⟨od', List.mem_cons_of_mem od hod', i, hi⟩
    · rcases ih k b hb with ⟨od', hod', i, hi⟩
      exact ⟨od', List.mem_cons_of_mem od hod', i, hi⟩

/-- The registry entry written back by `process_pending_offspring` for a
parent whose queue was cleared. -/
def clearQueue (c : Creature) : Creature :=
  { c with traits := { c.traits with pending_offspring := [] } }

theorem process_reg_mem (now : Int) (w : WorldState) (ids : Nat → String) :
    ∀ (cs : List Creature) (k : Nat),
      ∀ x ∈ (process_pending_offspring now w ids cs k).2.1,
        ∃ c ∈ cs, x = c ∨ x = clearQueue c := by
  intro cs
  induction cs with
  | nil => intro k x hx; simp [process_pending_offspring] at hx
  | cons c rest ih =>
    intro k x hx
    simp only [process_pending_offspring] at hx
    split_ifs at hx with h
    · rcases List.mem_cons.mp hx with hx1 | hx1
      · exact ⟨c, List.mem_cons_self c rest, Or.inr hx1⟩
      · rcases ih _ x hx1 with ⟨c', hc', ho⟩
        exact ⟨c', List.mem_cons_of_mem c hc', ho⟩
    · rcases List.mem_cons.mp hx with hx1 | hx1
      · exact ⟨c, List.mem_cons_self c rest, Or.inl hx1⟩
      · rcases ih _ x hx1 with ⟨c', hc', ho⟩
        exact ⟨c', List.mem_cons_of_mem c hc', ho⟩

theorem process_born_mem (now : Int) (w : WorldState) (ids : Nat → String) :
    ∀ (cs : List Creature) (k : Nat),
      ∀ b ∈ (process_pending_offspring now w ids cs k).1,
        ∃ c ∈ cs, ∃ od ∈ c.traits.pending_offspring, ∃ i : Nat,
          b = make_offspring (ids i) now c od := by
  intro cs
  induction cs with
  | nil => intro k b hb; simp [process_pending_offspring] at hb
  | cons c rest ih =>
    intro k b hb
    simp only [process_pending_offspring] at hb
    split_ifs at hb with h
    · rcases List.mem_append.mp hb with hb1 | hb1
      · rcases spawn_mem now w c ids _ _ b hb1 with ⟨od, hod, i, hi⟩
        exact ⟨c, List.mem_cons_self c rest, od, hod, i, hi⟩
      · rcases ih _ b hb1 with ⟨c', hc', od, hod, i, hi⟩
        exact ⟨c', List.mem_cons_of_mem c hc', od, hod, i, hi⟩
    · rcases ih _ b hb with ⟨c', hc', od, hod, i, hi⟩
      exact ⟨c', List.mem_cons_of_mem c hc', od, hod, i, hi⟩

theorem fsm_update_creature_dying (hsh : String → Int) (now : Int)
    (c : Creature) (w : WorldState) (g : RNG)
    (hd : c.state = CreatureState.dying) :
    (BehaviorFSM.update_creature hsh now c w g).1.state = CreatureState.dying := by
  simp [BehaviorFSM.update_creature, BehaviorFSM.state_update, hd, DyingState.update]

theorem SimulationEngine.temp_adjust_state (c : Creature) (w : WorldState) (g : RNG) :
    (SimulationEngine.temp_adjust c w g).1.state = c.state := by
  simp only [SimulationEngine.temp_adjust]
  split_ifs <;> rfl

theorem SimulationEngine.dens_adjust_state (pop : Nat) (mp : Int) (c : Creature)
    (g : RNG) : (SimulationEngine.dens_adjust pop mp c g).1.state = c.state := by
  simp only [SimulationEngine.dens_adjust]
  split_ifs <;> rfl

theorem SimulationEngine.age_adjust_state (c : Creature) (g : RNG) :
    (SimulationEngine.age_adjust c g).1.state = c.state := by
  simp only [SimulationEngine.age_adjust]
  split_ifs <;> rfl

theorem SimulationEngine.energy_adjust_state (c : Creature) (g : RNG) :
    (SimulationEngine.energy_adjust c g).1.state = c.state := by
  simp only [SimulationEngine.energy_adjust]
  split_ifs <;> rfl

theorem engine_update_creature_dying (hsh : String → Int) (now : Int)
    (pop : Nat) (mp : Int) (c : Creature) (w : WorldState) (g : RNG)
    (hd : c.state = CreatureState.dying) :
    (SimulationEngine.update_creature hsh now pop mp c w g).1.state
      = CreatureState.dying := by
  simp only [SimulationEngine.update_creature]
  apply fsm_update_creature_dying
  rw [SimulationEngine.energy_adjust_state, SimulationEngine.age_adjust_state,
    SimulationEngine.dens_adjust_state, SimulationEngine.temp_adjust_state]
  exact hd

theorem mapRng_map {β : Type} (F : Creature → β)
    (f : Creature → RNG → Creature × RNG) (hf : ∀ c g, F (f c g).1 = F c) :
    ∀ (cs : List Creature) (g : RNG), (mapRng f cs g).1.map F = cs.map F := by
  intro cs
  induction cs with
  | nil => intro g; simp [mapRng]
  | cons c cs ih => intro g; simp [mapRng, hf, ih]

theorem tick_no_dying (hsh : String → Int) (now : Int) (ids : Nat → String)
    (e : SimulationEngine) (g : RNG) (k : Nat) :
    ∀ c' ∈ (SimulationEngine.tick hsh now ids e g k).1.creatures,
      c'.state ≠ CreatureState.dying := by
  intro c' hc'
  simp only [SimulationEngine.tick] at hc'
  rcases mem_foldl_insertReg _ _ _ hc' with h | h
  · rcases process_reg_mem _ _ _ _ _ _ h with ⟨c0, hc0, ho⟩
    have hns : c0.state ≠ CreatureState.dying := by
      have := (List.mem_filter.mp hc0).2
      simpa using this
    rcases ho with rfl | rfl
    · exact hns
    · simpa [clearQueue] using hns
  · rcases process_born_mem _ _ _ _ _ _ h with ⟨p, hp, od, hod, i, rfl⟩
    simp [make_offspring]

/-- C4: once an agent is Dying, no operation moves it to another state — the
FSM step keeps it Dying (engine-level update included), forced reproduction
refuses Dying agents and leaves the engine unchanged, emergency feeding never
touches any state, and the tick removes Dying agents: after a tick no registry
entry is Dying. -/
theorem C4_dying_terminal :
    (∀ (hsh : String → Int) (now : Int) (c : Creature) (w : WorldState) (g : RNG),
      c.state = CreatureState.dying →
      (BehaviorFSM.update_creature hsh now c w g).1.state = CreatureState.dying) ∧
    (∀ (hsh : String → Int) (now : Int) (pop : Nat) (mp : Int) (c : Creature)
        (w : WorldState) (g : RNG), c.state = CreatureState.dying →
      (SimulationEngine.update_creature hsh now pop mp c w g).1.state
        = CreatureState.dying) ∧
    (∀ (e : SimulationEngine) (cid : String) (c : Creature),
      e.creatures.find? (fun x => x.id == cid) = some c →
      c.state = CreatureState.dying →
      SimulationEngine.force_reproduction e cid = (e, false)) ∧
    (∀ (e : SimulationEngine) (g : RNG),
      (SimulationEngine.feed_all_creatures e g).1.creatures.map Creature.state
        = e.creatures.map Creature.state) ∧
    (∀ (hsh : String → Int) (now : Int) (ids : Nat → String) (e : SimulationEngine)
        (g : RNG) (k : Nat),
      ∀ c' ∈ (SimulationEngine.tick hsh now ids e g k).1.creatures,
        c'.state ≠ CreatureState.dying) := by
  refine ⟨fsm_update_creature_dying, engine_update_creature_dying,
    ?_, ?_, tick_no_dying⟩
  · intro e cid c hf hd
    simp only [SimulationEngine.force_reproduction, hf]
    rw [if_neg (fun hcon => hcon.2.2 hd)]
  · intro e g
    simp only [SimulationEngine.feed_all_creatures]
    rw [mapRng_map Creature.state _ (fun c g => by split_ifs <;> rfl)]

/-- C4 witness: a concrete Dying creature stays Dying through the FSM step and
through the engine-level per-creature update. -/
theorem C4_witness :
    dyingC.state = CreatureState.dying ∧
    (BehaviorFSM.update_creature (fun _ => 0) 0 dyingC spareWorld g0).1.state
      = CreatureState.dying ∧
    (SimulationEngine.update_creature (fun _ => 0) 0 1 50 dyingC spareWorld g0).1.state
      = CreatureState.dying :=
  ⟨rfl, C4_dying_terminal.1 (fun _ => 0) 0 dyingC spareWorld g0 rfl,
   C4_dying_terminal.2.1 (fun _ => 0) 0 1 50 dyingC spareWorld g0 rfl⟩

theorem mapRng_length (f : Creature → RNG → Creature × RNG) :
    ∀ (cs : List Creature) (g : RNG), (mapRng f cs g).1.length = cs.length := by
  intro cs
  induction cs with
  | nil => intro g; simp [mapRng]
  | cons c cs ih => intro g; simp [mapRng, ih]

theorem mapRngW_map {β : Type} (F : Creature → β)
    (f : Creature → WorldState → RNG → Creature × WorldState × RNG)
    (hf : ∀ c w g, F (f c w g).1 = F c) :
    ∀ (cs : List Creature) (w : WorldState) (g : RNG),
      (mapRngW f cs w g).1.map F = cs.map F := by
  intro cs
  induction cs with
  | nil => intro w g; simp [mapRngW]
  | cons c cs ih => intro w g; simp [mapRngW, hf, ih]

theorem mapRngW_length (f : Creature → WorldState → RNG → Creature × WorldState × RNG) :
    ∀ (cs : List Creature) (w : WorldState) (g : RNG),
      (mapRngW f cs w g).1.length = cs.length := by
  intro cs
  induction cs with
  | nil => intro w g; simp [mapRngW]
  | cons c cs ih => intro w g; simp [mapRngW, ih]

theorem length_filter_not_add {α : Type} (p : α → Bool) (l : List α) :
    (l.filter p).length + (l.filter (fun a => !p a)).length = l.length := by
  induction l with
  | nil => rfl
  | cons a l ih =>
    cases hp : p a <;> simp [List.filter_cons, hp] <;> omega

theorem filter_dying_partition (cs : List Creature) :
    (cs.filter (fun c => decide (c.state = CreatureState.dying))).length +
      (cs.filter (fun c => decide (c.state ≠ CreatureState.dying))).length
      = cs.length := by
  have h := length_filter_not_add (fun c => decide (c.state = CreatureState.dying)) cs
  have he : cs.filter (fun c => decide (c.state ≠ CreatureState.dying))
      = cs.filter (fun c => !decide (c.state = CreatureState.dying)) := by
    apply List.filter_congr
    intro a _
    simp [decide_not]
  rw [he]
  exact h

theorem update_world_ids (now tc : Int) (cs : List Creature) (w : WorldState)
    (g : RNG) :
    reg_ids (SimulationEngine.update_world now tc cs w g).1 = reg_ids cs ∧
    (SimulationEngine.update_world now tc cs w g).2.1.population_count
      = ((SimulationEngine.update_world now tc cs w g).1.length : Int) := by
  have h1 : ∀ (cs : List Creature) (g : RNG),
      (mapRng (fun c g =>
        ({ c with happiness := min 100 (c.happiness + g.val 5 10) }, g.next)) cs g).1.map
        Creature.id = cs.map Creature.id :=
    mapRng_map Creature.id _ (fun c g => rfl)
  have h2 : ∀ (cs : List Creature) (g : RNG),
      (mapRng (fun c g =>
        ({ c with happiness := max 0 (c.happiness - g.val 3 8) }, g.next)) cs g).1.map
        Creature.id = cs.map Creature.id :=
    mapRng_map Creature.id _ (fun c g => rfl)
  simp only [SimulationEngine.update_world, reg_ids]
  split_ifs <;> simp [h1, h2]

theorem range1_append (m : Nat) : ∀ s n : Nat,
    List.range' s m ++ List.range' (s + m) n = List.range' s (m + n) := by
  induction m with
  | zero => intro s n; simp
  | succ m ih =>
    intro s n
    have e1 : m + 1 + n = (m + n) + 1 := by omega
    have e2 : s + (m + 1) = (s + 1) + m := by omega
    rw [e1, List.range'_succ, List.range'_succ, List.cons_append, e2, ih (s + 1) n]

theorem spawn_ids (now : Int) (w : WorldState) (parent : Creature)
    (ids : Nat → String) :
    ∀ (lst : List OffspringData) (k : Nat),
      (spawn_for_parent now w parent ids lst k).2
        = k + (spawn_for_parent now w parent ids lst k).1.length ∧
      reg_ids (spawn_for_parent now w parent ids lst k).1
        = (List.range' k (spawn_for_parent now w parent ids lst k).1.length).map ids := by
  intro lst
  induction lst with
  | nil => intro k; simp [spawn_for_parent, reg_ids]
  | cons od rest ih =>
    intro k
    simp only [spawn_for_parent]
    split_ifs with h
    · obtain ⟨ih1, ih2⟩ := ih (k + 1)
      constructor
      · simp only [List.length_cons]
        omega
      · simp only [reg_ids, List.map_cons, List.length_cons, make_offspring]
        rw [List.range'_succ]
        simp only [List.map_cons]
        simp only [reg_ids] at ih2
        rw [ih2]
    · exact ih k

theorem process_ids (now : Int) (w : WorldState) (ids : Nat → String) :
    ∀ (cs : List Creature) (k : Nat),
      (process_pending_offspring now w ids cs k).2.2
        = k + (process_pending_offspring now w ids cs k).1.length ∧
      reg_ids (process_pending_offspring now w ids cs k).1
        = (List.range' k (process_pending_offspring now w ids cs k).1.length).map ids ∧
      reg_ids (process_pending_offspring now w ids cs k).2.1 = reg_ids cs := by
  intro cs
  induction cs with
  | nil => intro k; simp [process_pending_offspring, reg_ids]
  | cons c rest ih =>
    intro k
    simp only [process_pending_offspring]
    split_ifs with h
    · obtain ⟨s1, s2⟩ := spawn_ids now w c ids c.traits.pending_offspring k
      obtain ⟨i1, i2, i3⟩ := ih (spawn_for_parent now w c ids c.traits.pending_offspring k).2
      refine ⟨?_, ?_, ?_⟩
      · simp only [List.length_append]
        omega
      · simp only [reg_ids, List.map_append, List.length_append]
        simp only [reg_ids] at s2 i2
        rw [s2, i2, s1]
        rw [← List.map_append]
        congr 1
        exact range1_append _ k _
      · simp only [reg_ids, List.map_cons]
        simp only [reg_ids] at i3
        rw [i3]
    · obtain ⟨i1, i2, i3⟩ := ih k
      refine ⟨i1, i2, ?_⟩
      simp only [reg_ids, List.map_cons]
      simp only [reg_ids] at i3
      rw [i3]

theorem insertReg_fresh (acc : List Creature) (b : Creature)
    (h : b.id ∉ reg_ids acc) : insertReg acc b = acc ++ [b] := by
  simp only [insertReg]
  rw [if_neg]
  intro hc
  exact h (by simpa using hc)

theorem foldl_insertReg_length (born : List Creature) :
    ∀ acc : List Creature, (reg_ids born).Nodup →
      (∀ b ∈ born, b.id ∉ reg_ids acc) →
      (born.foldl insertReg acc).length = acc.length + born.length := by
  induction born with
  | nil => intro acc _ _; simp
  | cons b born ih =>
    intro acc hnd hfr
    have hb : b.id ∉ reg_ids acc := hfr b (List.mem_cons_self b born)
    simp only [reg_ids, List.map_cons] at hnd
    have h1 : b.id ∉ List.map Creature.id born := (List.nodup_cons.mp hnd).1
    have h2 : (List.map Creature.id born).Nodup := (List.nodup_cons.mp hnd).2
    simp only [List.foldl_cons, insertReg_fresh acc b hb]
    have hfr' : ∀ x ∈ born, x.id ∉ reg_ids (acc ++ [b]) := by
      intro x hx
      simp only [reg_ids, List.map_append, List.map_cons, List.map_nil,
        List.mem_append, List.mem_cons, List.not_mem_nil]
      rintro (hxa | hxb)
      · exact hfr x (List.mem_cons_of_mem b hx) hxa
      · rcases hxb with hxb | hxb
        · exact h1 (hxb ▸ List.mem_map_of_mem Creature.id hx)
        · exact hxb
    rw [ih (acc ++ [b]) h2 hfr']
    simp only [List.length_append, List.length_cons, List.length_nil]
    omega

theorem SimulationEngine.temp_adjust_id (c : Creature) (w : WorldState) (g : RNG) :
    (SimulationEngine.temp_adjust c w g).1.id = c.id := by
  simp only [SimulationEngine.temp_adjust]
  split_ifs <;> rfl

theorem SimulationEngine.dens_adjust_id (pop : Nat) (mp : Int) (c : Creature)
    (g : RNG) : (SimulationEngine.dens_adjust pop mp c g).1.id = c.id := by
  simp only [SimulationEngine.dens_adjust]
  split_ifs <;> rfl

theorem SimulationEngine.age_adjust_id (c : Creature) (g : RNG) :
    (SimulationEngine.age_adjust c g).1.id = c.id := by
  simp only [SimulationEngine.age_adjust]
  split_ifs <;> rfl

theorem SimulationEngine.energy_adjust_id (c : Creature) (g : RNG) :
    (SimulationEngine.energy_adjust c g).1.id = c.id := by
  simp only [SimulationEngine.energy_adjust]
  split_ifs <;> rfl

theorem SimulationEngine.update_creature_id (hsh : String → Int) (now : Int)
    (pop : Nat) (mp : Int) (c : Creature) (w : WorldState) (g : RNG) :
    (SimulationEngine.update_creature hsh now pop mp c w g).1.id = c.id := by
  simp only [SimulationEngine.update_creature]
  rw [(fsm_update_creature_spec hsh now _ w _).2.2.2.1]
  rw [SimulationEngine.energy_adjust_id, SimulationEngine.age_adjust_id,
    SimulationEngine.dens_adjust_id, SimulationEngine.temp_adjust_id]

theorem EatingState.enter_world_misc (now : Int) (c : Creature) (w : WorldState)
    (g : RNG) :
    (EatingState.enter now c w g).2.1.population_count = w.population_count := by
  simp only [EatingState.enter, WorldState.consume_food]
  split_ifs <;> simp

theorem fsm_update_creature_popcount (hsh : String → Int) (now : Int)
    (c : Creature) (w : WorldState) (g : RNG) :
    (BehaviorFSM.update_creature hsh now c w g).2.1.population_count
      = w.population_count := by
  simp only [BehaviorFSM.update_creature, BehaviorFSM.state_exit]
  cases hns : (BehaviorFSM.state_update hsh now c.state c w g).2.1 with
  | none => rfl
  | some s =>
    simp only []
    split_ifs with hd
    · by_cases hse : s = CreatureState.eating
      · subst hse
        simp only [BehaviorFSM.state_enter]
        exact EatingState.enter_world_misc now _ w _
      · rw [(BehaviorFSM.state_enter_spec now s _ w _).2.2.2.2.2.2.2 hse]
    · rfl

theorem engine_update_creature_popcount (hsh : String → Int) (now : Int)
    (pop : Nat) (mp : Int) (c : Creature) (w : WorldState) (g : RNG) :
    (SimulationEngine.update_creature hsh now pop mp c w g).2.1.population_count
      = w.population_count := by
  simp only [SimulationEngine.update_creature]
  exact fsm_update_creature_popcount hsh now _ w _

theorem mapRngW_world {β : Type} (F : WorldState → β)
    (f : Creature → WorldState → RNG → Creature × WorldState × RNG)
    (hf : ∀ c w g, F (f c w g).2.1 = F w) :
    ∀ (cs : List Creature) (w : WorldState) (g : RNG),
      F (mapRngW f cs w g).2.1 = F w := by
  intro cs
  induction cs with
  | nil => intro w g; simp [mapRngW]
  | cons c cs ih =>
    intro w g
    simp only [mapRngW]
    rw [ih, hf]

/-- C5: after a complete `tick` the world's `population_count` equals the
registry size, for every starting registry, world state and oracle draws.
The uuid oracle is assumed injective and disjoint from the ids already in the
registry — the code's reliance on `uuid.uuid4()` uniqueness. -/
theorem C5_population_count (hsh : String → Int) (now : Int)
    (ids : Nat → String) (e : SimulationEngine) (g : RNG) (k : Nat)
    (hinj : Function.Injective ids)
    (hfresh : ∀ n : Nat, ∀ c ∈ e.creatures, ids n ≠ c.id) :
    (SimulationEngine.tick hsh now ids e g k).1.world_state.population_count
      = ((SimulationEngine.tick hsh now ids e g k).1.creatures.length : Int) := by
  obtain ⟨hw_ids, hw_pop⟩ :=
    update_world_ids now (e.tick_count + 1) e.creatures e.world_state g
  simp only [SimulationEngine.tick]
  set u := SimulationEngine.update_world now (e.tick_count + 1) e.creatures
    e.world_state g with hu
  have hv_ids : reg_ids (mapRngW (SimulationEngine.update_creature hsh now
      u.1.length u.2.1.max_population) u.1 u.2.1 u.2.2).1 = reg_ids u.1 :=
    mapRngW_map Creature.id _ (fun c w g =>
      SimulationEngine.update_creature_id hsh now u.1.length u.2.1.max_population c w g)
      u.1 u.2.1 u.2.2
  have hv_len : (mapRngW (SimulationEngine.update_creature hsh now
      u.1.length u.2.1.max_population) u.1 u.2.1 u.2.2).1.length = u.1.length :=
    mapRngW_length _ u.1 u.2.1 u.2.2
  have hv_pop : (mapRngW (SimulationEngine.update_creature hsh now
      u.1.length u.2.1.max_population) u.1 u.2.1 u.2.2).2.1.population_count
      = u.2.1.population_count :=
    mapRngW_world WorldState.population_count _ (fun c w g =>
      engine_update_creature_popcount hsh now u.1.length
        u.2.1.max_population c w g) u.1 u.2.1 u.2.2
  set v := mapRngW (SimulationEngine.update_creature hsh now u.1.length
    u.2.1.max_population) u.1 u.2.1 u.2.2 with hv
  have hpart := filter_dying_partition v.1
  set dead := v.1.filter (fun c => decide (c.state = CreatureState.dying)) with hdead
  set cs2 := v.1.filter (fun c => decide (c.state ≠ CreatureState.dying)) with hcs2
  set w3 : WorldState := { v.2.1 with
    population_count := v.2.1.population_count - (dead.length : Int) } with hw3
  obtain ⟨_, hq_born, hq_reg⟩ := process_ids now w3 ids cs2 k
  set q := process_pending_offspring now w3 ids cs2 k with hq
  have hborn_nd : (reg_ids q.1).Nodup := by
    rw [hq_born]
    exact List.Nodup.map hinj (List.nodup_range' k q.1.length)
  have hdisj : ∀ b ∈ q.1, b.id ∉ reg_ids q.2.1 := by
    intro b hb hmem
    have hbid : b.id ∈ reg_ids q.1 := List.mem_map_of_mem Creature.id hb
    rw [hq_born] at hbid
    rcases List.mem_map.mp hbid with ⟨i, hi, hbi⟩
    rw [hq_reg] at hmem
    have h1 : b.id ∈ reg_ids v.1 := by
      rcases List.mem_map.mp hmem with ⟨c, hc, he⟩
      exact he ▸ List.mem_map_of_mem _ (List.mem_of_mem_filter hc)
    rw [hv_ids, hw_ids] at h1
    rcases List.mem_map.mp h1 with ⟨c, hc, he⟩
    exact hfresh i c hc (hbi.trans he.symm)
  have hreg_len : q.2.1.length = cs2.length := by
    have := congrArg List.length hq_reg
    simpa [reg_ids] using this
  rw [foldl_insertReg_length q.1 q.2.1 hborn_nd hdisj]
  rw [hreg_len] at *
  rw [hw_pop] at hv_pop
  push_cast
  omega

/-- An injective uuid oracle for concrete runs: `n` letters `a`. -/
def uuidStream (n : Nat) : String := String.mk (List.replicate n 'a')

theorem uuidStream_injective : Function.Injective uuidStream := by
  intro m n h
  have h2 : List.replicate m 'a' = List.replicate n 'a' := congrArg String.data h
  have h3 := congrArg List.length h2
  simpa using h3

theorem uuidStream_ne_e1 (n : Nat) : uuidStream n ≠ "e-1" := by
  intro h
  have hd : List.replicate n 'a' = "e-1".data := congrArg String.data h
  rcases n with _ | n
  · exact absurd hd (by decide)
  · have hh : 'a' = "e-1".data.headI := congrArg List.headI hd
    exact absurd hh (by decide)

/-- A one-creature engine with spare capacity for concrete tick runs. -/
def tickEngine : SimulationEngine := ⟨[eligC], spareWorld, 0, 0, 0⟩

/-- C5 witness: a concrete tick on a one-creature registry with the concrete
injective uuid oracle ends with `population_count` equal to the registry
size. -/
theorem C5_witness :
    Function.Injective uuidStream ∧
    (∀ n : Nat, ∀ c ∈ tickEngine.creatures, uuidStream n ≠ c.id) ∧
    (SimulationEngine.tick (fun _ => 0) 0 uuidStream tickEngine g0 0).1.world_state.population_count
      = ((SimulationEngine.tick (fun _ => 0) 0 uuidStream tickEngine g0 0).1.creatures.length : Int) := by
  have hfr : ∀ n : Nat, ∀ c ∈ tickEngine.creatures, uuidStream n ≠ c.id := by
    intro n c hc
    have : c = eligC := by simpa [tickEngine] using hc
    rw [this]
    exact uuidStream_ne_e1 n
  exact ⟨uuidStream_injective, hfr,
    C5_population_count (fun _ => 0) 0 uuidStream tickEngine g0 0
      uuidStream_injective hfr⟩

/-- The well-formedness of a queued offspring descriptor that
`process_pending_offspring` relies on: bounded energy/happiness and a
non-negative lifespan ceiling. -/
def OffOk (od : OffspringData) : Prop :=
  0 ≤ od.energy ∧ od.energy ≤ 100 ∧ 0 ≤ od.happiness ∧ od.happiness ≤ 100 ∧
  0 ≤ od.max_age

instance (od : OffspringData) : Decidable (OffOk od) := by
  unfold OffOk; infer_instance

theorem make_offspring_good (uid : String) (now : Int) (parent : Creature)
    (od : OffspringData) (h : OffOk od) :
    InBounds (make_offspring uid now parent od) ∧
    (make_offspring uid now parent od).age
      ≤ (make_offspring uid now parent od).max_age ∧
    (make_offspring uid now parent od).traits.pending_offspring = [] := by
  unfold OffOk at h
  unfold InBounds make_offspring
  simp [Traits.empty]
  omega

theorem state_enter_pending (now : Int) (s : CreatureState) (c : Creature)
    (w : WorldState) (g : RNG) :
    (BehaviorFSM.state_enter now s c w g).1.traits.pending_offspring
      = c.traits.pending_offspring := by
  cases s <;>
    simp only [BehaviorFSM.state_enter, IdleState.enter, HungryState.enter,
      EatingState.enter, ReproducingState.enter, DyingState.enter,
      WorldState.consume_food] <;>
    split_ifs <;> simp

theorem state_update_pending (hsh : String → Int) (now : Int) (s : CreatureState)
    (c : Creature) (w : WorldState) (g : RNG) (hb : InBounds c)
    (hp : ∀ od ∈ c.traits.pending_offspring, OffOk od) :
    ∀ od ∈ (BehaviorFSM.state_update hsh now s c w g).1.traits.pending_offspring,
      OffOk od := by
  cases s <;> simp only [BehaviorFSM.state_update]
  case idle => rw [idle_update_spec]; exact hp
  case eating => rw [eating_update_spec]; exact hp
  case hungry =>
    simp only [HungryState.update]
    split_ifs <;> simpa using hp
  case dying =>
    simp only [DyingState.update]
    simpa using hp
  case reproducing =>
    simp only [ReproducingState.update, ReproducingState.create_offspring]
    split_ifs
    · simpa using hp
    · simp only []
      intro od hod
      simp only [List.mem_append, List.mem_singleton] at hod
      rcases hod with hod | hod
      · exact hp od hod
      · subst hod
        unfold InBounds at hb
        have h1 := g.le_val (-10) 10
        have h2 := g.val_le (show (-10 : Int) ≤ 10 by norm_num)
        unfold OffOk
        simp
        omega
    · simpa using hp

theorem fsm_update_creature_pending (hsh : String → Int) (now : Int)
    (c : Creature) (w : WorldState) (g : RNG) (hb : InBounds c)
    (hp : ∀ od ∈ c.traits.pending_offspring, OffOk od) :
    ∀ od ∈ (BehaviorFSM.update_creature hsh now c w g).1.traits.pending_offspring,
      OffOk od := by
  simp only [BehaviorFSM.update_creature, BehaviorFSM.state_exit]
  cases hns : (BehaviorFSM.state_update hsh now c.state c w g).2.1 with
  | none => exact state_update_pending hsh now c.state c w g hb hp
  | some s =>
    simp only []
    split_ifs with hd
    · rw [state_enter_pending]
      simpa using state_update_pending hsh now c.state c w g hb hp
    · exact state_update_pending hsh now c.state c w g hb hp

theorem SimulationEngine.temp_adjust_traits (c : Creature) (w : WorldState)
    (g : RNG) : (SimulationEngine.temp_adjust c w g).1.traits = c.traits := by
  simp only [SimulationEngine.temp_adjust]
  split_ifs <;> rfl

theorem SimulationEngine.dens_adjust_traits (pop : Nat) (mp : Int) (c : Creature)
    (g : RNG) : (SimulationEngine.dens_adjust pop mp c g).1.traits = c.traits := by
  simp only [SimulationEngine.dens_adjust]
  split_ifs <;> rfl

theorem SimulationEngine.age_adjust_traits (c : Creature) (g : RNG) :
    (SimulationEngine.age_adjust c g).1.traits = c.traits := by
  simp only [SimulationEngine.age_adjust]
  split_ifs <;> rfl

theorem SimulationEngine.energy_adjust_traits (c : Creature) (g : RNG) :
    (SimulationEngine.energy_adjust c g).1.traits = c.traits := by
  simp only [SimulationEngine.energy_adjust]
  split_ifs <;> rfl

theorem update_creature_pending_chain (hsh : String → Int) (now : Int)
    (c c' : Creature) (w : WorldState) (g' : RNG) (hs : Steps c c')
    (hpt : c'.traits = c.traits)
    (hp : ∀ od ∈ c.traits.pending_offspring, OffOk od) :
    ∀ od ∈ (BehaviorFSM.update_creature hsh now c' w g').1.traits.pending_offspring,
      OffOk od :=
  fsm_update_creature_pending hsh now c' w g' hs.1 (by rw [hpt]; exact hp)

theorem engine_update_creature_pending (hsh : String → Int) (now : Int)
    (pop : Nat) (mp : Int) (c : Creature) (w : WorldState) (g : RNG)
    (hb : InBounds c) (hp : ∀ od ∈ c.traits.pending_offspring, OffOk od) :
    ∀ od ∈ (SimulationEngine.update_creature hsh now pop mp c w g).1.traits.pending_offspring,
      OffOk od := by
  simp only [SimulationEngine.update_creature]
  refine update_creature_pending_chain hsh now c _ w _ ?_ ?_ hp
  · apply SimulationEngine.energy_adjust_steps
    apply SimulationEngine.age_adjust_steps
    apply SimulationEngine.dens_adjust_steps
    apply SimulationEngine.temp_adjust_steps
    unfold Steps InBounds at *
    simp
    omega
  · rw [SimulationEngine.energy_adjust_traits, SimulationEngine.age_adjust_traits,
      SimulationEngine.dens_adjust_traits, SimulationEngine.temp_adjust_traits]

theorem BehaviorFSM.update_creature_death_check (hsh : String → Int) (now : Int)
    (c : Creature) (w : WorldState) (g : RNG)
    (hnd : c.state ≠ CreatureState.dying)
    (hdead : c.max_age ≤ c.age ∨ c.energy ≤ 0) :
    (BehaviorFSM.update_creature hsh now c w g).1.state = CreatureState.dying := by
  have hcond : c.age ≥ c.max_age ∨ c.energy ≤ 0 := by omega
  cases hstate : c.state with
  | dying => exact absurd hstate hnd
  | idle =>
    simp [BehaviorFSM.update_creature, BehaviorFSM.state_update, hstate,
      IdleState.update, hcond, BehaviorFSM.state_exit, BehaviorFSM.state_enter,
      DyingState.enter]
  | hungry =>
    simp [BehaviorFSM.update_creature, BehaviorFSM.state_update, hstate,
      HungryState.update, hcond, BehaviorFSM.state_exit, BehaviorFSM.state_enter,
      DyingState.enter]
  | eating =>
    simp [BehaviorFSM.update_creature, BehaviorFSM.state_update, hstate,
      EatingState.update, hcond, BehaviorFSM.state_exit, BehaviorFSM.state_enter,
      DyingState.enter]
  | reproducing =>
    simp [BehaviorFSM.update_creature, BehaviorFSM.state_update, hstate,
      ReproducingState.update, hcond, BehaviorFSM.state_exit,
      BehaviorFSM.state_enter, DyingState.enter]

theorem fsm_update_creature_survivor (hsh : String → Int) (now : Int)
    (c : Creature) (w : WorldState) (g : RNG)
    (h : (BehaviorFSM.update_creature hsh now c w g).1.state ≠ CreatureState.dying) :
    c.age < c.max_age := by
  by_cases hnd : c.state = CreatureState.dying
  · exact absurd (fsm_update_creature_dying hsh now c w g hnd) h
  by_cases hdead : c.max_age ≤ c.age ∨ c.energy ≤ 0
  · exact absurd (BehaviorFSM.update_creature_death_check hsh now c w g hnd hdead) h
  · omega

theorem fsm_survivor_chain (hsh : String → Int) (now : Int) (c' : Creature)
    (w : WorldState) (g' : RNG)
    (h : (BehaviorFSM.update_creature hsh now c' w g').1.state ≠ CreatureState.dying) :
    (BehaviorFSM.update_creature hsh now c' w g').1.age
      < (BehaviorFSM.update_creature hsh now c' w g').1.max_age := by
  have h1 := fsm_update_creature_survivor hsh now c' w g' h
  obtain ⟨_, ha, hm, _, _, _⟩ := fsm_update_creature_spec hsh now c' w g'
  rw [ha, hm]
  exact h1

theorem engine_update_creature_survivor (hsh : String → Int) (now : Int)
    (pop : Nat) (mp : Int) (c : Creature) (w : WorldState) (g : RNG)
    (h : (SimulationEngine.update_creature hsh now pop mp c w g).1.state
      ≠ CreatureState.dying) :
    (SimulationEngine.update_creature hsh now pop mp c w g).1.age
      < (SimulationEngine.update_creature hsh now pop mp c w g).1.max_age := by
  simp only [SimulationEngine.update_creature] at *
  exact fsm_survivor_chain hsh now _ w _ h

theorem mapRng_forall {P Q : Creature → Prop} (f : Creature → RNG → Creature × RNG)
    (hf : ∀ c g, P c → Q (f c g).1) :
    ∀ (cs : List Creature) (g : RNG), (∀ c ∈ cs, P c) →
      ∀ c' ∈ (mapRng f cs g).1, Q c' := by
  intro cs
  induction cs with
  | nil => intro g _ c' hc'; simp [mapRng] at hc'
  | cons c cs ih =>
    intro g h c' hc'
    simp only [mapRng, List.mem_cons] at hc'
    rcases hc' with hc' | hc'
    · exact hc' ▸ hf c g (h c (List.mem_cons_self c cs))
    · exact ih _ (fun x hx => h x (List.mem_cons_of_mem c hx)) c' hc'

theorem mapRngW_forall {P Q : Creature → Prop}
    (f : Creature → WorldState → RNG → Creature × WorldState × RNG)
    (hf : ∀ c w g, P c → Q (f c w g).1) :
    ∀ (cs : List Creature) (w : WorldState) (g : RNG), (∀ c ∈ cs, P c) →
      ∀ c' ∈ (mapRngW f cs w g).1, Q c' := by
  intro cs
  induction cs with
  | nil => intro w g _ c' hc'; simp [mapRngW] at hc'
  | cons c cs ih =>
    intro w g h c' hc'
    simp only [mapRngW, List.mem_cons] at hc'
    rcases hc' with hc' | hc'
    · exact hc' ▸ hf c w g (h c (List.mem_cons_self c cs))
    · exact ih _ _ (fun x hx => h x (List.mem_cons_of_mem c hx)) c' hc'

theorem update_world_forall {P : Creature → Prop} (now tc : Int)
    (cs : List Creature) (w : WorldState) (g : RNG)
    (hplus : ∀ (c : Creature) (g : RNG), P c →
      P { c with happiness := min 100 (c.happiness + g.val 5 10) })
    (hminus : ∀ (c : Creature) (g : RNG), P c →
      P { c with happiness := max 0 (c.happiness - g.val 3 8) })
    (h : ∀ c ∈ cs, P c) :
    ∀ c' ∈ (SimulationEngine.update_world now tc cs w g).1, P c' := by
  simp only [SimulationEngine.update_world]
  split_ifs <;> intro c' hc' <;>
    first
      | exact h c' hc'
      | exact mapRng_forall _ (fun c g hc => hplus c g hc) cs _ h c' hc'
      | exact mapRng_forall _ (fun c g hc => hminus c g hc) cs _ h c' hc'

/-- The inductive agent invariant: resource bounds plus well-formed queued
offspring descriptors. -/
def GoodC (c : Creature) : Prop :=
  InBounds c ∧ ∀ od ∈ c.traits.pending_offspring, OffOk od

instance (c : Creature) : Decidable (GoodC c) := by
  unfold GoodC; infer_instance

theorem tick_preserves_invariant (hsh : String → Int) (now : Int)
    (ids : Nat → String) (e : SimulationEngine) (g : RNG) (k : Nat)
    (h : ∀ c ∈ e.creatures, GoodC c) :
    ∀ c' ∈ (SimulationEngine.tick hsh now ids e g k).1.creatures,
      GoodC c' ∧ c'.age ≤ c'.max_age := by
  intro c' hc'
  simp only [SimulationEngine.tick] at hc'
  set u := SimulationEngine.update_world now (e.tick_count + 1) e.creatures
    e.world_state g with hu
  set v := mapRngW (SimulationEngine.update_creature hsh now u.1.length
    u.2.1.max_population) u.1 u.2.1 u.2.2 with hv
  set dead := v.1.filter (fun c => decide (c.state = CreatureState.dying)) with hdead
  set cs2 := v.1.filter (fun c => decide (c.state ≠ CreatureState.dying)) with hcs2
  set w3 : WorldState := { v.2.1 with
    population_count := v.2.1.population_count - (dead.length : Int) } with hw3
  set q := process_pending_offspring now w3 ids cs2 k with hq
  have h0 : ∀ x ∈ u.1, GoodC x := by
    rw [hu]
    refine update_world_forall now (e.tick_count + 1) e.creatures e.world_state g
      ?_ ?_ h
    · intro c g hc
      obtain ⟨hb, hp⟩ := hc
      have hr := g.le_val 5 10
      refine ⟨?_, by simpa using hp⟩
      unfold InBounds at *
      simp
      omega
    · intro c g hc
      obtain ⟨hb, hp⟩ := hc
      have hr := g.le_val 3 8
      refine ⟨?_, by simpa using hp⟩
      unfold InBounds at *
      simp
      omega
  have h1 : ∀ x ∈ v.1, GoodC x ∧
      (x.state ≠ CreatureState.dying → x.age < x.max_age) := by
    rw [hv]
    refine mapRngW_forall _ ?_ u.1 u.2.1 u.2.2 h0
    intro c w g hc
    obtain ⟨hb, hp⟩ := hc
    obtain ⟨qb, _, _, _, _, _⟩ := engine_update_creature_spec hsh now
      u.1.length u.2.1.max_population c w g hb
    refine ⟨⟨qb, engine_update_creature_pending hsh now _ _ c w g hb hp⟩, ?_⟩
    intro hnd
    exact engine_update_creature_survivor hsh now _ _ c w g hnd
  have h2 : ∀ x ∈ cs2, GoodC x ∧ x.age < x.max_age := by
    intro x hx
    rw [hcs2] at hx
    have hmem := List.mem_of_mem_filter hx
    have hnd : x.state ≠ CreatureState.dying := by
      simpa using (List.mem_filter.mp hx).2
    obtain ⟨hg, hs⟩ := h1 x hmem
    exact ⟨hg, hs hnd⟩
  rcases mem_foldl_insertReg _ _ _ hc' with hmem | hmem
  · rw [hq] at hmem
    rcases process_reg_mem now w3 ids cs2 k c' hmem with ⟨c0, hc0, ho⟩
    obtain ⟨hg0, ha0⟩ := h2 c0 hc0
    rcases ho with rfl | rfl
    · exact ⟨hg0, le_of_lt ha0⟩
    · refine ⟨⟨?_, ?_⟩, ?_⟩
      · unfold InBounds clearQueue at *
        simpa using hg0.1
      · simp [clearQueue]
      · simpa [clearQueue] using le_of_lt ha0
  · rw [hq] at hmem
    rcases process_born_mem now w3 ids cs2 k c' hmem with ⟨p, hp, od, hod, i, rfl⟩
    have hodok : OffOk od := (h2 p hp).1.2 od hod
    obtain ⟨hb, hage, hpend⟩ := make_offspring_good (ids i) now p od hodok
    refine ⟨⟨hb, ?_⟩, hage⟩
    rw [hpend]
    exact fun od hod => absurd hod (List.not_mem_nil od)

/-- C3: the resource bounds 0 ≤ energy, happiness, hunger ≤ 100 are preserved
by every FSM enter and update, by the full FSM step (which also never touches
age or max-age), by the engine-level per-creature update (which advances age
by exactly one, so age stays ≤ max_age + 1 while the agent is within its
lifespan), by emergency feeding, and by migration acceptance of a serialized
in-bounds agent; a complete tick maps a registry of in-bounds agents (with
well-formed offspring queues) to a registry of in-bounds agents with
age ≤ max_age. -/
theorem C3_agent_invariants :
    (∀ (now : Int) (s : CreatureState) (c : Creature) (w : WorldState) (g : RNG),
      InBounds c → InBounds (BehaviorFSM.state_enter now s c w g).1) ∧
    (∀ (hsh : String → Int) (now : Int) (s : CreatureState) (c : Creature)
        (w : WorldState) (g : RNG),
      InBounds c → InBounds (BehaviorFSM.state_update hsh now s c w g).1) ∧
    (∀ (hsh : String → Int) (now : Int) (c : Creature) (w : WorldState) (g : RNG),
      InBounds c →
      InBounds (BehaviorFSM.update_creature hsh now c w g).1 ∧
      (BehaviorFSM.update_creature hsh now c w g).1.age = c.age ∧
      (BehaviorFSM.update_creature hsh now c w g).1.max_age = c.max_age) ∧
    (∀ (hsh : String → Int) (now : Int) (pop : Nat) (mp : Int) (c : Creature)
        (w : WorldState) (g : RNG),
      InBounds c →
      InBounds (SimulationEngine.update_creature hsh now pop mp c w g).1 ∧
      (SimulationEngine.update_creature hsh now pop mp c w g).1.age = c.age + 1 ∧
      (SimulationEngine.update_creature hsh now pop mp c w g).1.max_age
        = c.max_age ∧
      (c.age ≤ c.max_age →
        (SimulationEngine.update_creature hsh now pop mp c w g).1.age
          ≤ (SimulationEngine.update_creature hsh now pop mp c w g).1.max_age + 1)) ∧
    (∀ (e : SimulationEngine) (g : RNG), (∀ c ∈ e.creatures, InBounds c) →
      ∀ c' ∈ (SimulationEngine.feed_all_creatures e g).1.creatures, InBounds c') ∧
    (∀ (now : Int) (c : Creature) (m : String), InBounds c →
      InBounds (Creature.from_migration_data now (Creature.prepare_for_migration c) m) ∧
      (Creature.from_migration_data now (Creature.prepare_for_migration c) m).age
        = c.age) ∧
    (∀ (hsh : String → Int) (now : Int) (ids : Nat → String) (e : SimulationEngine)
        (g : RNG) (k : Nat), (∀ c ∈ e.creatures, GoodC c) →
      ∀ c' ∈ (SimulationEngine.tick hsh now ids e g k).1.creatures,
        InBounds c' ∧ c'.age ≤ c'.max_age) := by
  refine ⟨?_, ?_, ?_, ?_, ?_, ?_, ?_⟩
  · intro now s c w g hb
    exact (BehaviorFSM.state_enter_spec now s c w g).1 hb
  · intro hsh now s c w g hb
    exact (BehaviorFSM.state_update_spec hsh now s c w g).1 hb
  · intro hsh now c w g hb
    obtain ⟨qb, qa, qm, _, _, _⟩ := fsm_update_creature_spec hsh now c w g
    exact ⟨qb hb, qa, qm⟩
  · intro hsh now pop mp c w g hb
    obtain ⟨qb, qa, qm, _, _, _⟩ :=
      engine_update_creature_spec hsh now pop mp c w g hb
    exact ⟨qb, qa, qm, fun hle => by rw [qa, qm]; omega⟩
  · intro e g h
    simp only [SimulationEngine.feed_all_creatures]
    refine mapRng_forall _ ?_ e.creatures g h
    intro c g hc
    have hr := g.le_val 5 15
    unfold InBounds at *
    split_ifs <;> simp <;> omega
  · intro now c m hb
    unfold InBounds at *
    refine ⟨?_, rfl⟩
    simp only [Creature.from_migration_data, Creature.prepare_for_migration]
    simp
    omega
  · intro hsh now ids e g k h c' hc'
    obtain ⟨⟨hb, _⟩, ha⟩ := tick_preserves_invariant hsh now ids e g k h c' hc'
    exact ⟨hb, ha⟩

/-- The creature of `tickEngine` after one concrete tick (aged once, hunger
advanced by 2, everything else unchanged at the all-zero draws). -/
def eligC1 : Creature :=
  ⟨"e-1", "Rover", 61, 50, 50, 12, "m1", 1000, CreatureState.idle, Traits.empty, 0, 0⟩

/-- C3 witness: a concrete tick of a one-creature registry produces exactly
the aged creature, which is in bounds with age ≤ max_age; and a concrete FSM
step from the in-bounds `eligC` stays in bounds. -/
theorem C3_witness :
    (∀ c ∈ tickEngine.creatures, GoodC c) ∧
    eligC1 ∈ (SimulationEngine.tick (fun _ => 0) 0 uuidStream tickEngine g0 0).1.creatures ∧
    (InBounds eligC1 ∧ eligC1.age ≤ eligC1.max_age) ∧
    InBounds eligC ∧
    InBounds (BehaviorFSM.update_creature (fun _ => 0) 0 eligC spareWorld g0).1 := by
  refine ⟨by decide, by decide, ?_, by decide, ?_⟩
  · exact C3_agent_invariants.2.2.2.2.2.2 (fun _ => 0) 0 uuidStream tickEngine g0 0
      (by decide) eligC1 (by decide)
  · exact (C3_agent_invariants.2.2.1 (fun _ => 0) 0 eligC spareWorld g0 (by decide)).1

/-- A creature whose per-tick update is marked as raising a fault. -/
def failC : Creature :=
  ⟨"f-1", "Glitch", 30, 80, 50, 10, "m1", 1000, CreatureState.idle, Traits.empty, 0, 0⟩

/-- The fault oracle: updating the creature with id `"f-1"` raises. -/
def failsF : String → Bool := fun s => s == "f-1"

/-- An engine whose first creature faults and whose second is Dying. -/
def failEngine : SimulationEngine := ⟨[failC, dyingC], spareWorld, 0, 0, 0⟩

/-- C2 counterexample: with the first agent's update raising, the guarded tick
propagates the fault: the Dying second agent is left not updated (age still
10, would have advanced) and not swept — the remaining agents of that tick
are not processed and the tick does not complete. -/
theorem C2_counterexample :
    SimulationEngine.tick_exc failsF (fun _ => 0) 0 uuidStream failEngine g0 0
      = Except.error
        (⟨[failC, dyingC], ⟨100, 100, 20, 2, 50, 1, 0⟩, 1, 0, 0⟩, g0, 0) ∧
    dyingC.state = CreatureState.dying ∧ dyingC.age = 10 := by
  refine ⟨by rfl, by decide, by decide⟩

theorem mapRngWExc_no_fail (fails : String → Bool)
    (f : Creature → WorldState → RNG → Creature × WorldState × RNG)
    (h : ∀ s, fails s = false) :
    ∀ (cs : List Creature) (w : WorldState) (g : RNG),
      mapRngWExc fails f cs w g = Except.ok (mapRngW f cs w g) := by
  intro cs
  induction cs with
  | nil => intro w g; rfl
  | cons c cs ih =>
    intro w g
    simp only [mapRngWExc, mapRngW, h, Bool.false_eq_true, if_false]
    rw [ih]

theorem mapRngWExc_error (fails : String → Bool)
    (f : Creature → WorldState → RNG → Creature × WorldState × RNG)
    (hfid : ∀ c w g, (f c w g).1.id = c.id) :
    ∀ (cs : List Creature) (w : WorldState) (g : RNG),
      (∃ c ∈ cs, fails c.id = true) →
      ∃ v, mapRngWExc fails f cs w g = Except.error v ∧
        reg_ids v.1 = reg_ids cs := by
  intro cs
  induction cs with
  | nil =>
    intro w g hex
    simp at hex
  | cons c cs ih =>
    intro w g hex
    by_cases hc : fails c.id
    · exact ⟨(c :: cs, w, g), by simp [mapRngWExc, hc], rfl⟩
    · have hex' : ∃ x ∈ cs, fails x.id = true := by
        rcases hex with ⟨x, hx, hfx⟩
        rcases List.mem_cons.mp hx with rfl | hx'
        · exact absurd hfx (by simpa using hc)
        · exact ⟨x, hx', hfx⟩
      obtain ⟨v, hv, hvids⟩ := ih (f c w g).2.1 (f c w g).2.2 hex'
      refine ⟨((f c w g).1 :: v.1, v.2), ?_, ?_⟩
      · simp only [mapRngWExc, hc, Bool.false_eq_true, if_false]
        rw [hv]
      · simp only [reg_ids, List.map_cons] at *
        rw [hvids, hfid]

set_option maxHeartbeats 1000000 in
/-- C2 (amended: the fault is caught at the tick level, not per agent): with
no faulting agent the guarded tick equals the plain tick; the creature loop
stops at the first faulting agent — agents before it are updated, the
faulting agent and every later agent are left untouched; when any agent
faults the whole tick aborts with no agent removed and no birth/death
registered, and `_simulation_loop` catches the fault so the scheduler itself
carries on with the partially updated state. -/
theorem C2_tick_fault_semantics :
    (∀ (fails : String → Bool) (hsh : String → Int) (now : Int)
        (ids : Nat → String) (e : SimulationEngine) (g : RNG) (k : Nat),
      (∀ s, fails s = false) →
      SimulationEngine.tick_exc fails hsh now ids e g k
        = Except.ok (SimulationEngine.tick hsh now ids e g k)) ∧
    (∀ (fails : String → Bool)
        (f : Creature → WorldState → RNG → Creature × WorldState × RNG)
        (pre : List Creature) (a : Creature) (post : List Creature)
        (w : WorldState) (g : RNG),
      (∀ c ∈ pre, fails c.id = false) → fails a.id = true →
      mapRngWExc fails f (pre ++ a :: post) w g
        = Except.error ((mapRngW f pre w g).1 ++ a :: post,
            (mapRngW f pre w g).2)) ∧
    (∀ (fails : String → Bool) (hsh : String → Int) (now : Int)
        (ids : Nat → String) (e : SimulationEngine) (g : RNG) (k : Nat),
      (∃ c ∈ e.creatures, fails c.id = true) →
      ∃ (e' : SimulationEngine) (g' : RNG) (k' : Nat),
        SimulationEngine.tick_exc fails hsh now ids e g k
          = Except.error (e', g', k') ∧
        SimulationEngine.loop_step fails hsh now ids e g k = (e', g', k') ∧
        reg_ids e'.creatures = reg_ids e.creatures ∧
        e'.births_this_session = e.births_this_session ∧
        e'.deaths_this_session = e.deaths_this_session) := by
  refine ⟨?_, ?_, ?_⟩
  · intro fails hsh now ids e g k h
    simp only [SimulationEngine.tick_exc, SimulationEngine.tick,
      mapRngWExc_no_fail fails _ h]
  · intro fails f pre a post w g hpre ha
    induction pre generalizing w g with
    | nil => simp [mapRngWExc, mapRngW, ha]
    | cons c pre ih =>
      have hc : fails c.id = false := hpre c (List.mem_cons_self c pre)
      simp only [List.cons_append, mapRngWExc, mapRngW, hc,
        Bool.false_eq_true, if_false, List.append_eq]
      rw [ih _ _ (fun x hx => hpre x (List.mem_cons_of_mem c hx))]
  · intro fails hsh now ids e g k hex
    obtain ⟨hw_ids, _⟩ :=
      update_world_ids now (e.tick_count + 1) e.creatures e.world_state g
    set u := SimulationEngine.update_world now (e.tick_count + 1) e.creatures
      e.world_state g with hu
    have hex0 : ∃ c ∈ u.1, fails c.id = true := by
      obtain ⟨c, hc, hf⟩ := hex
      have hm : c.id ∈ reg_ids u.1 := by
        rw [hw_ids]
        exact List.mem_map_of_mem Creature.id hc
      rcases List.mem_map.mp hm with ⟨c0, hc0, he⟩
      exact ⟨c0, hc0, by rw [he]; exact hf⟩
    obtain ⟨v, hv, hvids⟩ := mapRngWExc_error fails
      (SimulationEngine.update_creature hsh now u.1.length u.2.1.max_population)
      (fun c w g => SimulationEngine.update_creature_id hsh now u.1.length
        u.2.1.max_population c w g)
      u.1 u.2.1 u.2.2 hex0
    have htick : SimulationEngine.tick_exc fails hsh now ids e g k
        = Except.error
          (⟨v.1, v.2.1, e.tick_count + 1, e.births_this_session,
            e.deaths_this_session⟩, v.2.2, k) := by
      simp only [SimulationEngine.tick_exc]
      rw [← hu, hv]
    refine ⟨_, _, _, htick, ?_, ?_, rfl, rfl⟩
    · simp only [SimulationEngine.loop_step]
      rw [htick]
    · rw [hvids, hw_ids]

/-- C2 witness: with no fault oracle the guarded tick is the plain tick; with
the concrete faulting engine the loop step absorbs the fault and keeps every
agent id in the registry. -/
theorem C2_witness :
    SimulationEngine.tick_exc (fun _ => false) (fun _ => 0) 0 uuidStream
      tickEngine g0 0
      = Except.ok (SimulationEngine.tick (fun _ => 0) 0 uuidStream tickEngine g0 0) ∧
    failC ∈ failEngine.creatures ∧ failsF failC.id = true ∧
    reg_ids (SimulationEngine.loop_step failsF (fun _ => 0) 0 uuidStream
        failEngine g0 0).1.creatures
      = reg_ids failEngine.creatures := by
  refine ⟨C2_tick_fault_semantics.1 (fun _ => false) (fun _ => 0) 0 uuidStream
    tickEngine g0 0 (fun s => rfl), by decide, by decide, ?_⟩
  obtain ⟨e', g', k', htick, hloop, hids, _, _⟩ :=
    C2_tick_fault_semantics.2.2 failsF (fun _ => 0) 0 uuidStream failEngine g0 0
      ⟨failC, by decide, by decide⟩
  rw [hloop]
  exact hids

end Thronglet
